import Mathlib

/-!
# Verification of the metadatafy indexing pipeline

Shallow embedding of the core indexing pipeline of the `metadatafy`
repository (TypeScript), together with proofs about its classification,
heuristic detection, orchestration and search-text behaviour.

Conventions of the embedding:

* Strings and paths are Lean `String`s; the inputs are project-relative
  POSIX-style paths, as produced by `path.relative` in the original.
* JavaScript `Array.prototype.sort` (stable since ES2019) is modelled by a
  stable insertion sort.
* The heuristic detector's scores (JS floating-point numbers built from the
  constants 0.05 .. 1.0) are represented exactly, in integer units of 0.05:
  a score of `s` twentieths stands for the real score `s / 20`.  All the
  thresholds of the source (0.3, 0.4, 0.5, 1.0) are exactly representable
  as 6, 8, 10, 20.  The JS original accumulates binary doubles, whose
  rounding differs from exact arithmetic only by tiny perturbations away
  from the thresholds.
* `JSON`/`Date`/console side effects are irrelevant to the claims and are
  not modelled; `fs` reads and parser exceptions are modelled by `Except`.
-/

/-! ## Basic string helpers (JS / Node semantics)

The Lean standard library implements `String.splitOn`, `String.replace`
and friends by well-founded recursion on byte positions, which the kernel
does not evaluate; the handful of string primitives the pipeline needs are
therefore (re)implemented here by structural recursion on the character
list of the string, so that every classification below is computable by
`decide`. -/

/-- Chars-level prefix test, the haystack begins with the needle. -/
def listStartsWith : List Char → List Char → Bool
  | [], _ => true
  | _ :: _, [] => false
  | a :: as, b :: bs => a == b && listStartsWith as bs

/-- Chars-level substring containment. -/
def listContainsSub (needle : List Char) : List Char → Bool
  | [] => listStartsWith needle []
  | c :: cs => listStartsWith needle (c :: cs) || listContainsSub needle cs

/-- JS `String.prototype.includes`: `pat` occurs somewhere in `s`. -/
def strContains (s pat : String) : Bool :=
  listContainsSub pat.data s.data

/-- JS `String.prototype.startsWith`. -/
def strStartsWith (s pat : String) : Bool :=
  listStartsWith pat.data s.data

/-- JS `String.prototype.endsWith`. -/
def strEndsWith (s pat : String) : Bool :=
  listStartsWith pat.data.reverse s.data.reverse

/-- ASCII lowercasing of a string (`toLowerCase` on the identifiers and
paths handled here). -/
def strToLower (s : String) : String :=
  String.mk (s.data.map Char.toLower)

/-- Split a character list at every occurrence of the separator
(JS `split(sep)` for a one-character separator). -/
def chSplit (sep : Char) : List Char → List (List Char)
  | [] => [[]]
  | c :: cs =>
    if c == sep then [] :: chSplit sep cs
    else
      match chSplit sep cs with
      | [] => [[c]]
      | h :: t => (c :: h) :: t

/-- Split a string on `/` into its path segments. -/
def splitSlash (s : String) : List String :=
  (chSplit '/' s.data).map String.mk

/-- Join strings with a separator (JS `Array.prototype.join`). -/
def joinWith (sep : String) : List String → String
  | [] => ""
  | [x] => x
  | x :: y :: rest => x ++ sep ++ joinWith sep (y :: rest)

/-- Node `path.basename` for the relative POSIX paths handled here:
the final path segment. -/
def pathBasename (p : String) : String :=
  (splitSlash p).getLastD ""

/-- Index of the last occurrence of a dot in a character list. -/
def lastDotIdx (cs : List Char) : Option Nat :=
  (List.range cs.length).foldl
    (fun acc i => if cs.get? i == some '.' then some i else acc) none

/-- Node `path.extname` for the paths handled here: the suffix of the
basename from its last dot, except that a name with no dot, a name whose
only dot is its first character (dotfiles such as `.env`), and the name
`..` all yield the empty string. -/
def pathExtname (p : String) : String :=
  let b := (pathBasename p).data
  match lastDotIdx b with
  | none => ""
  | some 0 => ""
  | some i => if b == ['.', '.'] then "" else String.mk (b.drop i)

/-- Node `path.dirname` for the relative paths handled here: everything
before the final separator, `"."` when there is no separator. -/
def pathDirname (p : String) : String :=
  let segs := splitSlash p
  if segs.length ≤ 1 then "." else joinWith "/" segs.dropLast

/-- Node `path.basename(p, ext)`: the basename with the suffix `ext`
removed when it is a proper suffix of the basename. -/
def pathBasenameExt (p ext : String) : String :=
  let b := pathBasename p
  if strEndsWith b ext && b != ext then
    String.mk (b.data.take (b.data.length - ext.length))
  else b

/-! ## File types (src/core/types.ts) -/

/-- The closed set of roles, `FileType` in src/core/types.ts. -/
inductive FileType
  | route
  | component
  | hook
  | service
  | api
  | table
  | utility
  deriving DecidableEq, Repr

/-! ## Classification tables (src/core/config.ts) -/

/-- Folder name to role table, `FOLDER_NAME_TYPE_MAPPING` in
src/core/config.ts, in source (JS object insertion) order. -/
def FOLDER_NAME_TYPE_MAPPING : List (String × FileType) :=
  [("components", .component), ("component", .component), ("ui", .component),
   ("widgets", .component), ("widget", .component), ("elements", .component),
   ("hooks", .hook), ("hook", .hook), ("composables", .hook),
   ("services", .service), ("service", .service), ("api", .service),
   ("utils", .utility), ("util", .utility), ("utilities", .utility),
   ("utility", .utility), ("lib", .utility), ("libs", .utility),
   ("helpers", .utility), ("helper", .utility), ("common", .utility),
   ("shared", .utility)]

/-- Exact filename to role table, `FILE_NAME_TYPE_MAPPING` in
src/core/config.ts. -/
def FILE_NAME_TYPE_MAPPING : List (String × FileType) :=
  [("page.tsx", .route), ("page.ts", .route), ("page.jsx", .route),
   ("page.js", .route),
   ("layout.tsx", .route), ("layout.ts", .route), ("layout.jsx", .route),
   ("layout.js", .route),
   ("route.tsx", .api), ("route.ts", .api), ("route.js", .api)]

/-- Path segment containment table, `PATH_SEGMENT_TYPE_MAPPING` in
src/core/config.ts. -/
def PATH_SEGMENT_TYPE_MAPPING : List (String × FileType) :=
  [("/api/", .api)]

/-- Migration directory substrings, `SQL_MIGRATION_PATTERNS` in
src/core/config.ts. -/
def SQL_MIGRATION_PATTERNS : List String :=
  ["supabase/migrations", "prisma/migrations", "migrations",
   "db/migrations", "database/migrations"]

/-! ## Glob matching (globToRegex in src/core/config.ts)

`globToRegex` escapes regex metacharacters, turns `**` into `.*` (matching
any characters) and a remaining `*` into `[^/]*` (any characters except the
separator), and anchors the result.  Escaping does not change which
characters a literal matches, so the compiled regex is modelled directly as
a token list.  The `{a,b}` brace step of the source operates on the already
escaped text and does not produce a usable alternation group; brace-free
patterns (the only ones the claims mention) are modelled here. -/

/-- A token of the compiled glob pattern. -/
inductive GlobTok
  | lit (c : Char)
  | star
  | globstar
  deriving DecidableEq, Repr

/-- Tokenize a glob pattern: `**` (leftmost-first, as the regex replace
pass does) becomes `globstar`, a single `*` becomes `star`, anything else
is a literal. -/
def globTokens : List Char → List GlobTok
  | [] => []
  | [c] => if c == '*' then [.star] else [.lit c]
  | c :: d :: rest =>
    if c == '*' then
      if d == '*' then .globstar :: globTokens rest
      else .star :: globTokens (d :: rest)
    else .lit c :: globTokens (d :: rest)

/-- Backtracking loop of `[^/]*` followed by a continuation matcher:
consume any number of non-separator characters, then hand over. -/
def starLoop (k : List Char → Bool) : List Char → Bool
  | [] => k []
  | d :: ds => k (d :: ds) || (d != '/' && starLoop k ds)

/-- Backtracking loop of `.*` followed by a continuation matcher. -/
def gsLoop (k : List Char → Bool) : List Char → Bool
  | [] => k []
  | d :: ds => k (d :: ds) || gsLoop k ds

/-- Anchored matching of a compiled glob against a string, with the
backtracking semantics of the regex `^ ... $`: `star` is `[^/]*`,
`globstar` is `.*`. -/
def tokMatcher : List GlobTok → List Char → Bool
  | [] => fun s => s.isEmpty
  | .lit c :: ts => fun s =>
      match s with
      | [] => false
      | d :: ds => c == d && tokMatcher ts ds
  | .star :: ts => starLoop (tokMatcher ts)
  | .globstar :: ts => gsLoop (tokMatcher ts)

/-- Whether the glob `pattern` matches the whole string `s`;
`globToRegex(pattern).test(s)` in the source. -/
def globMatch (pattern s : String) : Bool :=
  tokMatcher (globTokens pattern.data) s.data

/-! ## Stable sorting of the user glob map

The source sorts `Object.entries(this.config.fileTypeMapping)` with
`([a], [b]) => b.length - a.length`; ES2019 `sort` is stable, which an
insertion sort reproduces. -/

/-- Insert an entry into a list sorted by descending pattern length,
keeping earlier entries first among equal lengths. -/
def insertByLenDesc (p : String × FileType) :
    List (String × FileType) → List (String × FileType)
  | [] => [p]
  | q :: qs =>
      if p.1.length < q.1.length then q :: insertByLenDesc p qs
      else p :: q :: qs

/-- Stable sort of the glob map entries by descending pattern length. -/
def sortByLenDesc (l : List (String × FileType)) : List (String × FileType) :=
  l.foldr insertByLenDesc []

/-! ## determineFileType (ProjectAnalyzer.determineFileType) -/

/-- Backslash normalization of the incoming relative path,
`relativePath.replace(/\\/g, '/')` character by character. -/
def normalizePath (relativePath : String) : String :=
  String.mk (relativePath.data.map (fun c => if c == '\\' then '/' else c))

/-- Tier 1 body: a SQL file is a table iff the path contains one of the
migration directory substrings. -/
def sqlTier (normalizedPath : String) : Option FileType :=
  if SQL_MIGRATION_PATTERNS.any (fun pat => strContains normalizedPath pat)
  then some .table else none

/-- Tier 2: exact filename lookup. -/
def fileNameTier (normalizedPath : String) : Option FileType :=
  List.lookup (pathBasename normalizedPath) FILE_NAME_TYPE_MAPPING

/-- Tier 3: first segment-table entry contained in the path. -/
def segmentTier (normalizedPath : String) : Option FileType :=
  PATH_SEGMENT_TYPE_MAPPING.findSome?
    (fun st => if strContains normalizedPath st.1 then some st.2 else none)

/-- Tier 4: walk the folder segments from the immediate parent outward
(`for i = segments.length - 2 downto 0`) and take the first whose
lowercased name is in the folder table. -/
def folderTier (normalizedPath : String) : Option FileType :=
  ((splitSlash normalizedPath).dropLast).reverse.findSome?
    (fun seg => List.lookup (strToLower seg) FOLDER_NAME_TYPE_MAPPING)

/-- Tier 5: user glob map, longest pattern first, first match wins. -/
def globTier (fileTypeMapping : List (String × FileType))
    (normalizedPath : String) : Option FileType :=
  (sortByLenDesc fileTypeMapping).findSome?
    (fun pt => if globMatch pt.1 normalizedPath then some pt.2 else none)

/-- Tier 6: script files physically inside a `pages` directory. -/
def pagesTier (pathSegments : List String) (ext : String) : Option FileType :=
  if pathSegments.contains "pages" &&
      (ext == ".tsx" || ext == ".ts" || ext == ".jsx" || ext == ".js")
  then some .route else none

/-- The multi-tier classifier, `ProjectAnalyzer.determineFileType` in
src/core/analyzer.ts.  `fileTypeMapping` is the user glob map
(`this.config.fileTypeMapping`) as an entry list in object insertion
order. -/
def determineFileType (fileTypeMapping : List (String × FileType))
    (relativePath : String) : Option FileType :=
  let normalizedPath := normalizePath relativePath
  let fileName := pathBasename normalizedPath
  let ext := pathExtname fileName
  let pathSegments := splitSlash normalizedPath
  if ext == ".sql" then sqlTier normalizedPath
  else
    match fileNameTier normalizedPath with
    | some t => some t
    | none =>
      match segmentTier normalizedPath with
      | some t => some t
      | none =>
        match folderTier normalizedPath with
        | some t => some t
        | none =>
          match globTier fileTypeMapping normalizedPath with
          | some t => some t
          | none => pagesTier pathSegments ext

example : determineFileType [] "components/page.tsx" = some .route := by decide
example : determineFileType [] "api/users.ts" = some .service := by decide
example : determineFileType [] "src/api/users.ts" = some .api := by decide
example : determineFileType [] "supabase/migrations/001.sql" = some .table := by
  decide
example : determineFileType [] "queries/report.sql" = none := by decide
example : determineFileType [] "src/feature/Button.tsx" = none := by decide
example : globMatch "src/**/*.ts" "src/api/v1/users.ts" = true := by decide
example : globMatch "src/api/**/*.ts" "src/api/v1/users.ts" = true := by decide
example : globMatch "src/api/**/*.ts" "src/api/users.ts" = false := by decide
example : globMatch "components/*.tsx" "components/page.tsx" = true := by decide
example : globMatch "components/**/*.tsx" "components/page.tsx" = false := by
  decide
example : determineFileType [("src/**/*.ts", .utility),
    ("src/foo/**/*.ts", .service)] "src/foo/bar/users.ts" = some .service := by
  decide
example : pathExtname "foo.sql" = ".sql" := by decide
example : pathExtname ".env" = "" := by decide
example : pathDirname "a/b/c.ts" = "a/b" := by decide
example : pathDirname "c.ts" = "." := by decide
example : pathBasenameExt "components/Button.tsx" ".tsx" = "Button" := by decide

/-! ## The heuristic code pattern detector
(src/core/detectors/code-pattern-detector.ts)

The detector walks the TypeScript AST with `ts.forEachChild`, reacting to
individual node kinds independently of their nesting; a parsed source file
is therefore modelled as its file name plus the list of AST nodes in
traversal order, each node carrying exactly the attributes the detector
reads.  A variable statement additionally carries its declarations (which
the traversal visits as `isVariableDeclaration` nodes of their own). -/

/-- Callee shape of a call expression, as far as the detector looks. -/
inductive Callee
  | ident (name : String)
  | propAccess (baseIdent : Option String)
  | other
  deriving DecidableEq, Repr

/-- One variable declaration inside a variable statement: its identifier
name, if the binding is a plain identifier, and whether its initializer is
an arrow function or function expression. -/
structure VarDeclInfo where
  name : Option String
  initIsFunction : Bool
  deriving DecidableEq, Repr

/-- The AST node kinds the detector distinguishes, with the attributes it
reads from each.  `firstParam` is the source text of the first parameter
name, when the node has parameters. -/
inductive TsNode
  | funcDecl (name : Option String) (isExported : Bool) (isAsync : Bool)
      (firstParam : Option String)
  | arrowFunc (isAsync : Bool) (firstParam : Option String)
  | funcExpr (isAsync : Bool) (firstParam : Option String)
  | methodDecl (isAsync : Bool)
  | varStmt (isExported : Bool) (decls : List VarDeclInfo)
  | callExpr (callee : Callee)
  | classDecl (name : Option String)
  | importDecl (moduleName : String) (namedImports : List String)
  | jsxElement
  | jsxSelfClosing
  | jsxFragment
  deriving DecidableEq, Repr

/-- A parsed source file as the detector sees it. -/
structure SourceFileModel where
  fileName : String
  nodes : List TsNode
  deriving DecidableEq, Repr

/-- Result of one scorer, `DetectionResult` in the source.  `confidence`
is in exact twentieths: `confidence = s` models the JS score `s / 20`, so
the clamp `Math.min(score, 1)` is `min s 20`. -/
structure DetectionResult where
  type : FileType
  confidence : Nat
  reasons : List String
  deriving DecidableEq, Repr

/-- Score increments of the source, translated to twentieths. -/
def SCORE_04 : Nat := 8
/-- Score increment 0.2 in twentieths. -/
def SCORE_02 : Nat := 4
/-- Score increment 0.1 in twentieths. -/
def SCORE_01 : Nat := 2
/-- Score increment 0.5 in twentieths. -/
def SCORE_05 : Nat := 10
/-- Score increment 0.6 in twentieths. -/
def SCORE_06 : Nat := 12
/-- Score increment 0.3 in twentieths. -/
def SCORE_03 : Nat := 6
/-- Score increment 0.15 in twentieths. -/
def SCORE_015 : Nat := 3
/-- The clamp bound 1.0 in twentieths. -/
def SCORE_1 : Nat := 20

/-- The seven well-known stateful primitives, `reactHooks` in
`detectHook`. -/
def reactHooks : List String :=
  ["useState", "useEffect", "useCallback", "useMemo", "useRef",
   "useContext", "useReducer"]

/-- Hook naming test on a declared name:
`name.startsWith('use') && name.length > 3 && name[3] === name[3].toUpperCase()`.
Note the last conjunct accepts any character that is its own uppercase
(digits, underscores, ...), not only uppercase letters. -/
def hookNameDecl (name : String) : Bool :=
  strStartsWith name "use" && name.length > 3 &&
    (match name.data.get? 3 with
     | some c => c.toUpper == c
     | none => false)

/-- Call name test for the `hookCalls` set:
`callName.startsWith('use') && callName.length > 3`. -/
def hookCallName (name : String) : Bool :=
  strStartsWith name "use" && name.length > 3

/-- Accumulator of the `detectHook` traversal. -/
structure HookScan where
  reasons : List String := []
  score : Nat := 0
  hookCalls : List String := []
  deriving Repr

/-- Handling of one declared function or variable name in `detectHook`
(quote characters of the original reason text are dropped). -/
def hookDeclStep (acc : HookScan) (name : String) : HookScan :=
  if hookNameDecl name then
    { acc with
      reasons := acc.reasons ++
        ["함수 " ++ name ++ "가 use로 시작 (Hook 네이밍 컨벤션)"],
      score := acc.score + SCORE_04 }
  else acc

/-- One step of the `detectHook` AST walk. -/
def hookVisit (acc : HookScan) : TsNode → HookScan
  | .funcDecl (some name) _ _ _ => hookDeclStep acc name
  | .varStmt _ decls =>
      decls.foldl
        (fun a d => match d.name with
          | some n => hookDeclStep a n
          | none => a) acc
  | .callExpr (.ident n) =>
      if hookCallName n then
        if acc.hookCalls.contains n then acc
        else { acc with hookCalls := acc.hookCalls ++ [n] }
      else acc
  | _ => acc

/-- Post-traversal scoring of `detectHook`: the
React/custom hook calls bonuses and the acceptance test. -/
def hookPost (scan : HookScan) : Option DetectionResult :=
  let usedReactHooks := reactHooks.filter (fun h => scan.hookCalls.contains h)
  let s1 :=
    if usedReactHooks.length > 0 then
      { scan with
        reasons := scan.reasons ++
          ["React Hook 사용: " ++ joinWith ", " usedReactHooks],
        score := scan.score + SCORE_02 * min usedReactHooks.length 3 }
    else scan
  let customHookCalls :=
    scan.hookCalls.filter (fun h => !(reactHooks.contains h))
  let s2 :=
    if customHookCalls.length > 0 then
      { s1 with
        reasons := s1.reasons ++
          ["커스텀 Hook 호출: " ++ joinWith ", " (customHookCalls.take 3)],
        score := s1.score + SCORE_01 }
    else s1
  if s2.score < SCORE_03 then none
  else some { type := .hook, confidence := min s2.score SCORE_1,
              reasons := s2.reasons }

/-- Hook scorer, `CodePatternDetector.detectHook`. -/
def detectHook (sf : SourceFileModel) : Option DetectionResult :=
  hookPost (sf.nodes.foldl hookVisit {})

/-- Accumulator of the `detectComponent` traversal. -/
structure ComponentScan where
  jsxElementCount : Nat := 0
  hasJsxReturn : Bool := false
  hasPropsParam : Bool := false
  deriving Repr

/-- Props parameter test: the first parameter is named `props` or is a
destructuring pattern (its text starts with an opening brace). -/
def propsParamText (firstParam : Option String) : Bool :=
  match firstParam with
  | some p => p == "props" || strStartsWith p "\x7b"
  | none => false

/-- One step of the `detectComponent` AST walk. -/
def componentVisit (acc : ComponentScan) : TsNode → ComponentScan
  | .jsxElement =>
      { acc with jsxElementCount := acc.jsxElementCount + 1,
                 hasJsxReturn := true }
  | .jsxSelfClosing =>
      { acc with jsxElementCount := acc.jsxElementCount + 1,
                 hasJsxReturn := true }
  | .jsxFragment =>
      { acc with jsxElementCount := acc.jsxElementCount + 1,
                 hasJsxReturn := true }
  | .funcDecl _ _ _ fp =>
      if propsParamText fp then { acc with hasPropsParam := true } else acc
  | .arrowFunc _ fp =>
      if propsParamText fp then { acc with hasPropsParam := true } else acc
  | .funcExpr _ fp =>
      if propsParamText fp then { acc with hasPropsParam := true } else acc
  | _ => acc

/-- Post-traversal scoring of `detectComponent`. -/
def componentPost (fileName : String) (scan : ComponentScan) :
    Option DetectionResult :=
  let p1 : List String × Nat :=
    if scan.hasJsxReturn then
      if scan.jsxElementCount > 3 then
        (["JSX 요소 반환",
          "다수의 JSX 요소 (" ++ toString scan.jsxElementCount ++ "개)"],
         SCORE_05 + SCORE_02)
      else (["JSX 요소 반환"], SCORE_05)
    else ([], 0)
  let p2 : List String × Nat :=
    if scan.hasPropsParam then
      (p1.1 ++ ["props 매개변수 사용"], p1.2 + SCORE_02)
    else p1
  let score :=
    if strEndsWith fileName ".tsx" || strEndsWith fileName ".jsx" then
      p2.2 + SCORE_01
    else p2.2
  if score < SCORE_04 then none
  else some { type := .component, confidence := min score SCORE_1,
              reasons := p2.1 }

/-- Component scorer, `CodePatternDetector.detectComponent`. -/
def detectComponent (sf : SourceFileModel) : Option DetectionResult :=
  componentPost sf.fileName (sf.nodes.foldl componentVisit {})

/-- The fixed HTTP method names of `detectApiRoute`. -/
def HTTP_METHODS : List String :=
  ["GET", "POST", "PUT", "DELETE", "PATCH", "HEAD", "OPTIONS"]

/-- Accumulator of the `detectApiRoute` traversal. -/
structure ApiScan where
  httpMethods : List String := []
  hasNextRequest : Bool := false
  hasNextResponse : Bool := false
  deriving Repr

/-- Insertion into the `httpMethods` set. -/
def apiAddMethod (acc : ApiScan) (n : String) : ApiScan :=
  if acc.httpMethods.contains n then acc
  else { acc with httpMethods := acc.httpMethods ++ [n] }

/-- One step of the `detectApiRoute` AST walk. -/
def apiVisit (acc : ApiScan) : TsNode → ApiScan
  | .funcDecl (some n) isExported _ _ =>
      if HTTP_METHODS.contains n && isExported then apiAddMethod acc n
      else acc
  | .varStmt isExported decls =>
      if isExported then
        decls.foldl
          (fun a d => match d.name with
            | some n =>
                if HTTP_METHODS.contains n then apiAddMethod a n else a
            | none => a) acc
      else acc
  | .importDecl m named =>
      if m == "next/server" then
        { acc with
          hasNextRequest := acc.hasNextRequest || named.contains "NextRequest",
          hasNextResponse :=
            acc.hasNextResponse || named.contains "NextResponse" }
      else acc
  | _ => acc

/-- Post-traversal scoring of `detectApiRoute`. -/
def apiPost (scan : ApiScan) : Option DetectionResult :=
  let p1 : List String × Nat :=
    if scan.httpMethods.length > 0 then
      (["HTTP 메서드 export: " ++ joinWith ", " scan.httpMethods], SCORE_06)
    else ([], 0)
  let p2 : List String × Nat :=
    if scan.hasNextRequest || scan.hasNextResponse then
      (p1.1 ++ ["Next.js server import (NextRequest/NextResponse)"],
       p1.2 + SCORE_03)
    else p1
  if p2.2 < SCORE_05 then none
  else some { type := .api, confidence := min p2.2 SCORE_1, reasons := p2.1 }

/-- API route scorer, `CodePatternDetector.detectApiRoute`. -/
def detectApiRoute (sf : SourceFileModel) : Option DetectionResult :=
  apiPost (sf.nodes.foldl apiVisit {})

/-- Service class name test: lowercased name contains service, api or
client. -/
def serviceClassName (name : String) : Bool :=
  strContains (strToLower name) "service" || strContains (strToLower name) "api"
    || strContains (strToLower name) "client"

/-- Accumulator of the `detectService` traversal; class reasons and their
score are pushed during the walk. -/
structure ServiceScan where
  reasons : List String := []
  score : Nat := 0
  fetchCount : Nat := 0
  axiosCount : Nat := 0
  asyncFunctionCount : Nat := 0
  deriving Repr

/-- One step of the `detectService` AST walk. -/
def serviceVisit (acc : ServiceScan) : TsNode → ServiceScan
  | .callExpr (.ident n) =>
      if n == "fetch" then { acc with fetchCount := acc.fetchCount + 1 }
      else if n == "axios" then { acc with axiosCount := acc.axiosCount + 1 }
      else acc
  | .callExpr (.propAccess (some b)) =>
      if b == "axios" then { acc with axiosCount := acc.axiosCount + 1 }
      else acc
  | .funcDecl _ _ isAsync _ =>
      if isAsync then
        { acc with asyncFunctionCount := acc.asyncFunctionCount + 1 }
      else acc
  | .arrowFunc isAsync _ =>
      if isAsync then
        { acc with asyncFunctionCount := acc.asyncFunctionCount + 1 }
      else acc
  | .methodDecl isAsync =>
      if isAsync then
        { acc with asyncFunctionCount := acc.asyncFunctionCount + 1 }
      else acc
  | .classDecl (some name) =>
      if serviceClassName name then
        { acc with reasons := acc.reasons ++ ["서비스 클래스: " ++ name],
                   score := acc.score + SCORE_05 }
      else acc
  | _ => acc

/-- Post-traversal scoring of `detectService`. -/
def servicePost (scan : ServiceScan) : Option DetectionResult :=
  let s1 :=
    if scan.fetchCount > 0 then
      { scan with
        reasons := scan.reasons ++
          ["fetch 호출 " ++ toString scan.fetchCount ++ "회"],
        score := scan.score + SCORE_02 * min scan.fetchCount 3 }
    else scan
  let s2 :=
    if scan.axiosCount > 0 then
      { s1 with
        reasons := s1.reasons ++
          ["axios 호출 " ++ toString scan.axiosCount ++ "회"],
        score := s1.score + SCORE_02 * min scan.axiosCount 3 }
    else s1
  let s3 :=
    if scan.asyncFunctionCount ≥ 2 then
      { s2 with
        reasons := s2.reasons ++
          ["async 함수 " ++ toString scan.asyncFunctionCount ++ "개"],
        score := s2.score + SCORE_015 }
    else s2
  if s3.score < SCORE_03 then none
  else some { type := .service, confidence := min s3.score SCORE_1,
              reasons := s3.reasons }

/-- Service scorer, `CodePatternDetector.detectService`. -/
def detectService (sf : SourceFileModel) : Option DetectionResult :=
  servicePost (sf.nodes.foldl serviceVisit {})

/-- Verb-like name beginnings of `detectUtility`. -/
def utilityPatterns : List String :=
  ["format", "parse", "convert", "validate", "is", "has", "get", "set",
   "create", "generate", "calculate", "transform"]

/-- Accumulator of the `detectUtility` traversal. -/
structure UtilityScan where
  hasReactImport : Bool := false
  hasJsx : Bool := false
  exportedFunctionCount : Nat := 0
  exportedNames : List String := []
  deriving Repr

/-- One step of the `detectUtility` AST walk.  Note that a JSX fragment
does not set `hasJsx` (the source only tests `isJsxElement` and
`isJsxSelfClosingElement` here). -/
def utilityVisit (acc : UtilityScan) : TsNode → UtilityScan
  | .importDecl m _ =>
      if m == "react" || strStartsWith m "react/" then
        { acc with hasReactImport := true }
      else acc
  | .jsxElement => { acc with hasJsx := true }
  | .jsxSelfClosing => { acc with hasJsx := true }
  | .funcDecl (some n) isExported _ _ =>
      if isExported then
        { acc with exportedFunctionCount := acc.exportedFunctionCount + 1,
                   exportedNames := acc.exportedNames ++ [n] }
      else acc
  | .varStmt isExported decls =>
      if isExported then
        decls.foldl
          (fun a d =>
            if d.initIsFunction then
              match d.name with
              | some n =>
                  { a with
                    exportedFunctionCount := a.exportedFunctionCount + 1,
                    exportedNames := a.exportedNames ++ [n] }
              | none => a
            else a) acc
      else acc
  | _ => acc

/-- Post-traversal scoring of `detectUtility`. -/
def utilityPost (scan : UtilityScan) : Option DetectionResult :=
  if scan.hasJsx || scan.hasReactImport then none
  else
    let p1 : List String × Nat :=
      if scan.exportedFunctionCount ≥ 2 then
        ([toString scan.exportedFunctionCount ++ "개의 함수 export"],
         SCORE_03 + SCORE_01 * min (scan.exportedFunctionCount - 2) 5)
      else ([], 0)
    let matchingNames := scan.exportedNames.filter
      (fun name =>
        utilityPatterns.any (fun pat => strStartsWith (strToLower name) pat))
    let p2 : List String × Nat :=
      if matchingNames.length > 0 then
        (p1.1 ++
          ["유틸리티 함수명 패턴: " ++ joinWith ", " (matchingNames.take 3)],
         p1.2 + SCORE_02)
      else p1
    if p2.2 < SCORE_03 then none
    else some { type := .utility, confidence := min p2.2 SCORE_1,
                reasons := p2.1 }

/-- Utility scorer, `CodePatternDetector.detectUtility`. -/
def detectUtility (sf : SourceFileModel) : Option DetectionResult :=
  utilityPost (sf.nodes.foldl utilityVisit {})

/-! ## Scorer selection (CodePatternDetector.detect)

The source pushes the accepted results in scorer order and takes the head
of `detections.sort((a, b) => b.confidence - a.confidence)`; ES2019 `sort`
is stable, modelled by a stable insertion sort on descending confidence. -/

/-- Insert into a list sorted by descending confidence, after every
strictly more confident element and before the equally confident ones
already present only if inserted earlier — i.e. stably. -/
def insertByConfDesc (d : DetectionResult) :
    List DetectionResult → List DetectionResult
  | [] => [d]
  | e :: es =>
      if d.confidence < e.confidence then e :: insertByConfDesc d es
      else d :: e :: es

/-- Stable sort by descending confidence. -/
def sortByConfDesc (l : List DetectionResult) : List DetectionResult :=
  l.foldr insertByConfDesc []

/-- The accepted results, in scorer evaluation order. -/
def scorerResults (sf : SourceFileModel) : List (Option DetectionResult) :=
  [detectHook sf, detectComponent sf, detectApiRoute sf, detectService sf,
   detectUtility sf]

/-- The detector entry point, `CodePatternDetector.detect`. -/
def detect (sf : SourceFileModel) : Option DetectionResult :=
  ((sortByConfDesc ((scorerResults sf).filterMap id))).head?

example :
    detectHook { fileName := "x.ts",
                 nodes := [.funcDecl (some "useAuth") true false none] } =
      some { type := .hook, confidence := 8,
             reasons := ["함수 useAuth가 use로 시작 (Hook 네이밍 컨벤션)"] } := by
  decide

example :
    detectHook { fileName := "x.ts",
                 nodes := [.varStmt false [⟨some "use_data", false⟩]] } =
      some { type := .hook, confidence := 8,
             reasons := ["함수 use_data가 use로 시작 (Hook 네이밍 컨벤션)"] } := by
  decide

example :
    detect { fileName := "x.ts",
             nodes := [.funcDecl (some "useAuth") true false none] } =
      some { type := .hook, confidence := 8,
             reasons := ["함수 useAuth가 use로 시작 (Hook 네이밍 컨벤션)"] } := by
  decide

example :
    detectUtility { fileName := "u.ts",
                    nodes := [.funcDecl (some "formatDate") true false none,
                              .funcDecl (some "parseDate") true false none] } =
      some { type := .utility, confidence := 10,
             reasons := ["2개의 함수 export",
                         "유틸리티 함수명 패턴: formatDate, parseDate"] } := by
  decide

/-! ## Data model of a parsed unit (src/core/types.ts) -/

/-- `ExportInfo` of src/core/types.ts. -/
structure ExportInfo where
  name : String
  isDefault : Bool
  isTypeOnly : Bool
  kind : String
  deriving DecidableEq, Repr

/-- `ImportInfo` of src/core/types.ts. -/
structure ImportInfo where
  source : String
  specifiers : List String
  isDefault : Bool
  isTypeOnly : Bool
  resolvedPath : Option String := none
  deriving DecidableEq, Repr

/-- `PropInfo` of src/core/types.ts. -/
structure PropInfo where
  name : String
  type : String
  required : Bool
  defaultValue : Option String := none
  deriving DecidableEq, Repr

/-- `ParsedFile` of src/core/types.ts (the `metadata` field is omitted:
no claim touches it). -/
structure ParsedFile where
  path : String
  type : FileType
  name : String
  imports : List ImportInfo := []
  exports : List ExportInfo := []
  props : Option (List PropInfo) := none
  deriving DecidableEq, Repr

/-- `CallGraphEntry` of src/core/types.ts. -/
structure CallGraphEntry where
  calls : List String
  calledBy : List String
  deriving DecidableEq, Repr

/-- `CodeIndexItem` of src/core/types.ts (`metadata` reduced to the export
and prop names it holds, which is all the claims mention). -/
structure CodeIndexItem where
  id : String
  projectId : String
  type : FileType
  name : String
  path : String
  keywords : List String
  searchText : String
  calls : List String
  calledBy : List String
  metadataExports : List String
  metadataProps : Option (List String)
  deriving DecidableEq, Repr

/-- `AnalysisStats` of src/core/types.ts (`byType` as a function from
roles to counts). -/
structure AnalysisStats where
  totalFiles : Nat
  byType : FileType → Nat
  parseErrors : List String

/-- `AnalysisResult` of src/core/types.ts (the timestamp is irrelevant to
the claims and omitted). -/
structure AnalysisResult where
  projectId : String
  items : List CodeIndexItem
  stats : AnalysisStats

/-! ## Name extraction (ProjectAnalyzer.extractName) -/

/-- The basenames that defer to the parent directory name. -/
def specialBasenames : List String := ["index", "page", "layout", "route"]

/-- Fallback of `extractName` when no usable default export exists:
the basename without extension, except that `index`/`page`/`layout`/
`route` files take their parent directory name when one exists. -/
def extractNameFromPath (relativePath : String) : String :=
  let basename := pathBasenameExt relativePath (pathExtname relativePath)
  if specialBasenames.contains basename then
    let dirname := pathDirname relativePath
    let parentName := pathBasename dirname
    if parentName != "." then parentName else basename
  else basename

/-- `ProjectAnalyzer.extractName`: prefer the name of the (first) default
export unless it is the sentinel `default`; otherwise derive from the
path. -/
def extractName (relativePath : String) (exports : List ExportInfo) :
    String :=
  match exports.find? (fun e => e.isDefault) with
  | some de => if de.name != "default" then de.name else
      extractNameFromPath relativePath
  | none => extractNameFromPath relativePath

example : extractName "components/Button.tsx"
    [{ name := "Button", isDefault := true, isTypeOnly := false,
       kind := "function" }] = "Button" := by decide
example : extractName "app/dashboard/page.tsx" [] = "dashboard" := by decide
example : extractName "index.ts" [] = "index" := by decide

/-! ## Keyword normalization and ids (spec-modelled collaborators)

The keyword extractor (src/core/extractors/keyword-extractor.ts) and the
id generator (src/utils/id-utils.ts) are called by the analyzer but their
sources are not part of the provided tree; they are modelled from the
spec. -/

/-- Split one identifier into lowercased tokens: first on kebab/snake (and
path/extension) separators, then before each uppercase letter, dropping
empty tokens.  Modelled from the spec: the tokenization step of the
Keyword Normalizer, section 4.4. -/
def tokenizeIdentifier (ident : String) : List String :=
  ((ident.data.map
      (fun c => if c == '-' || c == '_' || c == '/' || c == '.' then ' '
                else c)).foldr
    (fun c acc =>
      match acc with
      | [] => [[c]]
      | w :: ws =>
        if c == ' ' then [] :: (w :: ws)
        else if c.isUpper then [] :: ((c :: w) :: ws)
        else (c :: w) :: ws) [[]]).filterMap
    (fun w => if w.isEmpty then none else some (strToLower (String.mk w)))

/-- First-seen-order deduplication. -/
def dedupFirstSeen (l : List String) : List String :=
  l.foldl (fun acc t => if acc.contains t then acc else acc ++ [t]) []

/-- Modelled from the spec: `KeywordExtractor.extract`
(src/core/extractors/keyword-extractor.ts is not among the provided
sources).  Tokenizes the display name, the project-relative path, the
export names and the prop names, expands each token through the optional
bilingual synonym table, and deduplicates preserving first-seen order
(section 4.4). -/
def keywordExtract (synonyms : String → List String) (name path : String)
    (exportNames : List String) (propNames : Option (List String)) :
    List String :=
  let tokens :=
    (([name, path] ++ exportNames ++ propNames.getD []).map
      tokenizeIdentifier).flatten
  dedupFirstSeen (tokens.map (fun t => t :: synonyms t)).flatten

/-- Modelled from the spec: `generateId` (src/utils/id-utils.ts is not
among the provided sources) — a deterministic id derived from the project
id and the path (sections 4.6, 8). -/
def generateId (projectId path : String) : String :=
  projectId ++ ":" ++ path

example : tokenizeIdentifier "attendance-modal.tsx" =
    ["attendance", "modal", "tsx"] := by decide
example : tokenizeIdentifier "AuthService" = ["auth", "service"] := by decide
example : dedupFirstSeen ["a", "b", "a", "c", "b"] = ["a", "b", "c"] := by
  decide

/-! ## Index item assembly (ProjectAnalyzer.createIndexItem,
ProjectAnalyzer.buildSearchText) -/

/-- `ProjectAnalyzer.buildSearchText`: space-join the display name, path,
keywords, export names and prop names, then lowercase. -/
def buildSearchText (parsed : ParsedFile) (keywords : List String) :
    String :=
  let parts :=
    [parsed.name, parsed.path] ++ keywords ++
      parsed.exports.map (fun e => e.name) ++
      (parsed.props.map (fun ps => ps.map (fun p => p.name))).getD []
  strToLower (joinWith " " parts)

/-- `ProjectAnalyzer.createIndexItem`. -/
def createIndexItem (projectId : String) (synonyms : String → List String)
    (callGraph : String → Option CallGraphEntry) (parsed : ParsedFile) :
    CodeIndexItem :=
  let graphEntry := (callGraph parsed.path).getD ⟨[], []⟩
  let keywords := keywordExtract synonyms parsed.name parsed.path
    (parsed.exports.map (fun e => e.name))
    (parsed.props.map (fun ps => ps.map (fun p => p.name)))
  { id := generateId projectId parsed.path
    projectId := projectId
    type := parsed.type
    name := parsed.name
    path := parsed.path
    keywords := keywords
    searchText := buildSearchText parsed keywords
    calls := graphEntry.calls
    calledBy := graphEntry.calledBy
    metadataExports := parsed.exports.map (fun e => e.name)
    metadataProps := parsed.props.map (fun ps => ps.map (fun p => p.name)) }

/-! ## Per-file parsing (ProjectAnalyzer.parseFile)

`parseFile` reads the file, parses SQL files with the SQL parser after the
migration check, and otherwise parses the script with the TypeScript
parser, runs `determineFileType`, falls back to the pattern detector, and
runs the extractors.  The TypeScript parser's output is the
`SourceFileModel` of the file and the three extractors are passed as
oracle functions over it — their sources are separate components whose
internals no claim depends on.  A thrown per-file exception is the
`Except.error` case. -/

/-- Modelled from the spec: `SQLParser.parse`
(src/core/parsers/sql-parser.ts is not among the provided sources).  It
pattern-matches the table name and columns out of the statement text,
failing with a parse error otherwise, and yields the parsed unit of a
table definition (section 4.1, tier 1 of section 4.3); the table/column
extraction itself is an oracle parameter here. -/
def sqlParserParse (extractTable : String → Option String)
    (content relativePath : String) : Except String ParsedFile :=
  match extractTable content with
  | none => .error ("Failed to parse SQL: " ++ relativePath)
  | some tableName =>
      .ok { path := relativePath, type := .table, name := tableName }

/-- `ProjectAnalyzer.parseFile`.  `sqlParse` is the SQL parser,
`extractImports`/`extractExports`/`extractProps` the three structural
extractors over the parsed script `sf`. -/
def parseFile (fileTypeMapping : List (String × FileType))
    (sqlParse : String → String → Except String ParsedFile)
    (extractImports : SourceFileModel → List ImportInfo)
    (extractExports : SourceFileModel → List ExportInfo)
    (extractProps : SourceFileModel → List PropInfo)
    (content relativePath : String) (sf : SourceFileModel) :
    Except String (Option ParsedFile) :=
  if pathExtname relativePath == ".sql" then
    match determineFileType fileTypeMapping relativePath with
    | none => .ok none
    | some _ => (sqlParse content relativePath).map some
  else
    let fileType0 := determineFileType fileTypeMapping relativePath
    let fileType :=
      match fileType0 with
      | some t => some t
      | none =>
        match detect sf with
        | some codeDetection =>
            if SCORE_02 + SCORE_02 ≤ codeDetection.confidence then
              some codeDetection.type
            else none
        | none => none
    match fileType with
    | none => .ok none
    | some t =>
        let exports := extractExports sf
        .ok (some
          { path := relativePath
            type := t
            name := extractName relativePath exports
            imports := extractImports sf
            exports := exports
            props := if t = .component then some (extractProps sf)
                     else none })

/-! ## The run loop (ProjectAnalyzer.analyze)

The per-file loop catches a thrown parse, records
`filePath + ": " + message` in `parseErrors` and continues; a `null`
parse is skipped silently.  `parse` abstracts the whole per-file step
(file read + `parseFile`); files are identified by their project-relative
paths. -/

/-- The parsing loop of `analyze`: returns the parsed files and the parse
errors, in input order. -/
def analyzeScan (parse : String → Except String (Option ParsedFile))
    (files : List String) : List ParsedFile × List String :=
  files.foldl
    (fun acc f =>
      match parse f with
      | .ok (some p) => (acc.1 ++ [p], acc.2)
      | .ok none => acc
      | .error m => (acc.1, acc.2 ++ [f ++ ": " ++ m]))
    ([], [])

/-- `ProjectAnalyzer.calculateStats`. -/
def calculateStats (items : List CodeIndexItem)
    (parseErrors : List String) : AnalysisStats :=
  { totalFiles := items.length
    byType := fun t => (items.filter (fun it => it.type = t)).length
    parseErrors := parseErrors }

/-- `ProjectAnalyzer.analyze`: parse every file, build the call graph
(an oracle: its construction is the graph builder component), create the
index items, compute the stats. -/
def analyze (projectId : String) (synonyms : String → List String)
    (callGraph : String → Option CallGraphEntry)
    (parse : String → Except String (Option ParsedFile))
    (files : List String) : AnalysisResult :=
  let scanned := analyzeScan parse files
  let items := scanned.1.map (createIndexItem projectId synonyms callGraph)
  { projectId := projectId
    items := items
    stats := calculateStats items scanned.2 }

/-! # Theorems -/

/-! ## Classification tier claims -/

/-- C1: The claim asserts that whenever the nearest enclosing folder of a
script file is in the folder table, the folder decides the role.  This is
false: the exact-filename tier runs first, so `components/page.tsx` is a
`route` although its nearest folder `components` maps to `component`, and
a user glob mapping it to `component` matches it as well. -/
theorem folder_rule_overridden_by_filename_tier :
    folderTier (normalizePath "components/page.tsx") =
        some FileType.component ∧
      globMatch "components/*.tsx" "components/page.tsx" = true ∧
      determineFileType [("components/*.tsx", FileType.component)]
          "components/page.tsx" = some FileType.route ∧
      FileType.route ≠ FileType.component := by
  decide

/-- C1 (amended): for every script file that no earlier tier claims — not
a SQL file, filename not in the exact-filename table, no reserved path
segment — the nearest-enclosing-folder rule decides the role, regardless
of the user glob map (the conclusion holds for every `fileTypeMapping`,
matching or not). -/
theorem folder_tier_decides_regardless_of_globs
    (fileTypeMapping : List (String × FileType)) (relativePath : String)
    (t : FileType)
    (hSql : (pathExtname (pathBasename (normalizePath relativePath)) ==
      ".sql") = false)
    (hName : fileNameTier (normalizePath relativePath) = none)
    (hSeg : segmentTier (normalizePath relativePath) = none)
    (hFold : folderTier (normalizePath relativePath) = some t) :
    determineFileType fileTypeMapping relativePath = some t := by
  simp only [determineFileType, hSql, hName, hSeg, hFold, Bool.false_eq_true,
    if_false]

/-- Witness for C1 (amended): `src/components/Button.tsx` is a component
by the folder rule even under a user glob map sending every `.tsx` file
under `src` to `route`. -/
theorem folder_tier_decides_regardless_of_globs_witness :
    determineFileType [("src/**/*.tsx", FileType.route)]
      "src/components/Button.tsx" = some FileType.component :=
  folder_tier_decides_regardless_of_globs _ _ _ (by decide) (by decide)
    (by decide) (by decide)

/-- C5: The claim asserts that an `api` path segment anywhere forces role
`api`.  This is false when `api` is the first segment: the containment
test looks for the substring `/api/`, which an initial segment does not
produce, and the folder tier then maps the `api` folder to `service`. -/
theorem api_first_segment_gives_service :
    ((splitSlash (normalizePath "api/users.ts")).contains "api") = true ∧
      fileNameTier (normalizePath "api/users.ts") = none ∧
      (pathExtname (pathBasename (normalizePath "api/users.ts")) ==
        ".sql") = false ∧
      determineFileType [] "api/users.ts" = some FileType.service ∧
      FileType.service ≠ FileType.api := by
  decide

/-- C5 (amended): for every non-SQL file whose filename is not in the
exact-filename table, if the substring `/api/` occurs in the normalized
path — that is, `api` is an interior path segment, not the leading one —
the role is `api`, for every user glob map. -/
theorem interior_api_segment_forces_api
    (fileTypeMapping : List (String × FileType)) (relativePath : String)
    (hSql : (pathExtname (pathBasename (normalizePath relativePath)) ==
      ".sql") = false)
    (hName : fileNameTier (normalizePath relativePath) = none)
    (hSeg : strContains (normalizePath relativePath) "/api/" = true) :
    determineFileType fileTypeMapping relativePath = some FileType.api := by
  have hs : segmentTier (normalizePath relativePath) = some FileType.api := by
    simp [segmentTier, PATH_SEGMENT_TYPE_MAPPING, hSeg]
  simp only [determineFileType, hSql, hName, hs, Bool.false_eq_true, if_false]

/-- Witness for C5 (amended): `src/api/users.ts` has an interior `api`
segment and is classified `api` even under a glob map sending it to
`utility`. -/
theorem interior_api_segment_forces_api_witness :
    determineFileType [("src/**/*.ts", FileType.utility)] "src/api/users.ts" =
      some FileType.api :=
  interior_api_segment_forces_api _ _ (by decide) (by decide) (by decide)

/-- Sorting a two-entry glob map puts the longer pattern first, whatever
the map order. -/
theorem sortByLenDesc_pair (p1 p2 : String) (r1 r2 : FileType)
    (hLen : p1.length < p2.length) :
    sortByLenDesc [(p1, r1), (p2, r2)] = [(p2, r2), (p1, r1)] ∧
      sortByLenDesc [(p2, r2), (p1, r1)] = [(p2, r2), (p1, r1)] := by
  constructor
  · simp [sortByLenDesc, insertByLenDesc, hLen]
  · simp [sortByLenDesc, insertByLenDesc, Nat.not_lt.mpr (Nat.le_of_lt hLen),
      Nat.lt_irrefl]

/-- C6: within the user glob tier — reached when no earlier tier matched —
of two patterns that both match the file, the role of the longer pattern
string is assigned, whichever order the map lists them in. -/
theorem glob_tier_longest_pattern_wins
    (p1 p2 : String) (r1 r2 : FileType) (relativePath : String)
    (hSql : (pathExtname (pathBasename (normalizePath relativePath)) ==
      ".sql") = false)
    (hName : fileNameTier (normalizePath relativePath) = none)
    (hSeg : segmentTier (normalizePath relativePath) = none)
    (hFold : folderTier (normalizePath relativePath) = none)
    (hM1 : globMatch p1 (normalizePath relativePath) = true)
    (hM2 : globMatch p2 (normalizePath relativePath) = true)
    (hLen : p1.length < p2.length) :
    determineFileType [(p1, r1), (p2, r2)] relativePath = some r2 ∧
      determineFileType [(p2, r2), (p1, r1)] relativePath = some r2 := by
  have hsort := sortByLenDesc_pair p1 p2 r1 r2 hLen
  have hg1 : globTier [(p1, r1), (p2, r2)] (normalizePath relativePath) =
      some r2 := by
    simp [globTier, hsort.1, hM2]
  have hg2 : globTier [(p2, r2), (p1, r1)] (normalizePath relativePath) =
      some r2 := by
    simp [globTier, hsort.2, hM2]
  constructor
  · simp only [determineFileType, hSql, hName, hSeg, hFold, hg1,
      Bool.false_eq_true, if_false]
  · simp only [determineFileType, hSql, hName, hSeg, hFold, hg2,
      Bool.false_eq_true, if_false]

/-- Witness for C6: both patterns match `src/feature/v1/users.ts`, the
longer one is 15 characters against 12, and its role `service` wins in
either map order. -/
theorem glob_tier_longest_pattern_wins_witness :
    determineFileType [("src/**/*.ts", FileType.utility),
        ("src/feature/**/*.ts", FileType.service)]
      "src/feature/v1/users.ts" = some FileType.service ∧
    determineFileType [("src/feature/**/*.ts", FileType.service),
        ("src/**/*.ts", FileType.utility)]
      "src/feature/v1/users.ts" = some FileType.service :=
  glob_tier_longest_pattern_wins "src/**/*.ts" "src/feature/**/*.ts"
    FileType.utility FileType.service "src/feature/v1/users.ts" (by decide)
    (by decide) (by decide) (by decide) (by decide) (by decide) (by decide)

/-- C4: for a discovered SQL file, a path containing one of the migration
directory patterns yields role `table` (through the SQL parser, whose
successful output is a `table` unit), and otherwise the file produces no
unit and no error — `parseFile` returns a clean `none` without consulting
the SQL parser. -/
theorem sql_migration_pattern_rule
    (fileTypeMapping : List (String × FileType))
    (extractTable : String → Option String)
    (extractImports : SourceFileModel → List ImportInfo)
    (extractExports : SourceFileModel → List ExportInfo)
    (extractProps : SourceFileModel → List PropInfo)
    (content relativePath : String) (sf : SourceFileModel)
    (hExtP : (pathExtname relativePath == ".sql") = true)
    (hExtN : (pathExtname (pathBasename (normalizePath relativePath)) ==
      ".sql") = true) :
    ((∃ pat ∈ SQL_MIGRATION_PATTERNS,
        strContains (normalizePath relativePath) pat = true) →
      determineFileType fileTypeMapping relativePath = some FileType.table ∧
      ∀ pf, sqlParserParse extractTable content relativePath = .ok pf →
        pf.type = FileType.table ∧
        parseFile fileTypeMapping (sqlParserParse extractTable)
          extractImports extractExports extractProps content relativePath sf =
          .ok (some pf)) ∧
    ((∀ pat ∈ SQL_MIGRATION_PATTERNS,
        strContains (normalizePath relativePath) pat = false) →
      determineFileType fileTypeMapping relativePath = none ∧
      parseFile fileTypeMapping (sqlParserParse extractTable)
        extractImports extractExports extractProps content relativePath sf =
        .ok none) := by
  constructor
  · intro hPat
    have hAny : SQL_MIGRATION_PATTERNS.any
        (fun pat => strContains (normalizePath relativePath) pat) = true := by
      rw [List.any_eq_true]
      obtain ⟨pat, hmem, hc⟩ := hPat
      exact ⟨pat, hmem, hc⟩
    have hdt : determineFileType fileTypeMapping relativePath =
        some FileType.table := by
      simp only [determineFileType, hExtN, if_true, sqlTier, hAny]
    refine ⟨hdt, fun pf hpf => ?_⟩
    have htable : pf.type = FileType.table := by
      unfold sqlParserParse at hpf
      cases h : extractTable content with
      | none => rw [h] at hpf; cases hpf
      | some tn =>
          rw [h] at hpf
          cases hpf
          rfl
    refine ⟨htable, ?_⟩
    simp only [parseFile, hExtP, if_true, hdt, hpf, Except.map]
  · intro hPat
    have hAny : SQL_MIGRATION_PATTERNS.any
        (fun pat => strContains (normalizePath relativePath) pat) = false := by
      rw [Bool.eq_false_iff]
      intro hc
      rw [List.any_eq_true] at hc
      obtain ⟨pat, hmem, hc⟩ := hc
      rw [hPat pat hmem] at hc
      cases hc
    have hdt : determineFileType fileTypeMapping relativePath = none := by
      simp only [determineFileType, hExtN, if_true, sqlTier, hAny,
        Bool.false_eq_true, if_false]
    refine ⟨hdt, ?_⟩
    simp only [parseFile, hExtP, if_true, hdt]

/-- Witness for C4: both halves at concrete inputs — a migration SQL file
becomes a `table` unit, a stray SQL file is silently excluded. -/
theorem sql_migration_pattern_rule_witness :
    determineFileType [] "supabase/migrations/001_users.sql" =
        some FileType.table ∧
      parseFile [] (sqlParserParse (fun _ => some "users")) (fun _ => [])
        (fun _ => []) (fun _ => []) "create table users ()"
        "supabase/migrations/001_users.sql" ⟨"x", []⟩ =
        .ok (some { path := "supabase/migrations/001_users.sql",
                    type := FileType.table, name := "users" }) ∧
      determineFileType [] "queries/report.sql" = none ∧
      parseFile [] (sqlParserParse (fun _ => some "users")) (fun _ => [])
        (fun _ => []) (fun _ => []) "select 1" "queries/report.sql"
        ⟨"x", []⟩ = .ok none := by
  have h1 := (sql_migration_pattern_rule [] (fun _ => some "users")
    (fun _ => []) (fun _ => []) (fun _ => []) "create table users ()"
    "supabase/migrations/001_users.sql" ⟨"x", []⟩ (by decide) (by decide)).1
    ⟨"supabase/migrations", by decide, by decide⟩
  have h2 := (sql_migration_pattern_rule [] (fun _ => some "users")
    (fun _ => []) (fun _ => []) (fun _ => []) "select 1" "queries/report.sql"
    ⟨"x", []⟩ (by decide) (by decide)).2 (by decide)
  refine ⟨h1.1, (h1.2 _ rfl).2, h2.1, h2.2⟩

/-! ## Display name claim -/

/-- C10: the display name prefers the name of the default export unless it
is the sentinel `default`; otherwise it is the extension-stripped basename,
replaced by the parent directory name for `index`/`page`/`layout`/`route`
files that are not at the project root.  The uniqueness hypothesis states
that the unit has at most one default export (a TS module cannot have
more). -/
theorem extractName_characterization
    (relativePath : String) (exports : List ExportInfo)
    (hU : ∀ e1 ∈ exports, ∀ e2 ∈ exports,
      e1.isDefault = true → e2.isDefault = true → e1 = e2) :
    (∀ e ∈ exports, e.isDefault = true → e.name ≠ "default" →
      extractName relativePath exports = e.name) ∧
    ((∀ e ∈ exports, e.isDefault = true → e.name = "default") →
      extractName relativePath exports =
        (let basename := pathBasenameExt relativePath
          (pathExtname relativePath)
         if specialBasenames.contains basename then
           let parentName := pathBasename (pathDirname relativePath)
           if parentName != "." then parentName else basename
         else basename)) := by
  constructor
  · intro e hmem hdef hname
    cases hfind : exports.find? (fun x => x.isDefault) with
    | none =>
        have := List.find?_eq_none.mp hfind e hmem
        rw [hdef] at this
        cases this rfl
    | some de =>
        have hdmem := List.mem_of_find?_eq_some hfind
        have hddef : de.isDefault = true := List.find?_some hfind
        have : de = e := hU de hdmem e hmem hddef hdef
        subst this
        have hne : (de.name != "default") = true := by
          simpa using hname
        simp only [extractName, hfind, hne, if_true]
  · intro hall
    cases hfind : exports.find? (fun x => x.isDefault) with
    | none => simp only [extractName, hfind, extractNameFromPath]
    | some de =>
        have hdmem := List.mem_of_find?_eq_some hfind
        have hddef : de.isDefault = true := List.find?_some hfind
        have hdname : de.name = "default" := hall de hdmem hddef
        have hne : (de.name != "default") = false := by
          simp [hdname]
        simp only [extractName, hfind, hne, Bool.false_eq_true, if_false,
          extractNameFromPath]

/-- Witness for C10: both branches at concrete inputs through the theorem:
a named default export wins; a `page.tsx` with only the sentinel default
export takes its parent directory name. -/
theorem extractName_characterization_witness :
    extractName "components/Button.tsx"
        [{ name := "Button", isDefault := true, isTypeOnly := false,
           kind := "function" }] = "Button" ∧
      extractName "app/dashboard/page.tsx"
        [{ name := "default", isDefault := true, isTypeOnly := false,
           kind := "function" }] = "dashboard" := by
  constructor
  · exact (extractName_characterization "components/Button.tsx"
      [{ name := "Button", isDefault := true, isTypeOnly := false,
         kind := "function" }] (by decide)).1
      { name := "Button", isDefault := true, isTypeOnly := false,
        kind := "function" } (by decide) (by decide) (by decide)
  · have h := (extractName_characterization "app/dashboard/page.tsx"
      [{ name := "default", isDefault := true, isTypeOnly := false,
         kind := "function" }] (by decide)).2 (by decide)
    rw [h]
    decide

/-! ## Search text claim -/

/-- Deduplication yields lists without duplicates. -/
theorem dedupFirstSeen_nodup (l : List String) : (dedupFirstSeen l).Nodup := by
  suffices h : ∀ acc : List String, acc.Nodup →
      (l.foldl (fun acc t => if acc.contains t then acc else acc ++ [t])
        acc).Nodup by
    exact h [] List.nodup_nil
  induction l with
  | nil => intro acc hacc; simpa using hacc
  | cons t ts ih =>
      intro acc hacc
      simp only [List.foldl_cons]
      by_cases hc : acc.contains t = true
      · rw [if_pos hc]; exact ih acc hacc
      · rw [if_neg hc]
        refine ih _ ?_
        have hnot : t ∉ acc := by
          intro hmem
          exact hc (by simpa using hmem)
        simp [List.nodup_append, hacc, hnot]

/-- C8: every index item's `searchText` is the lowercased, space-joined
concatenation of display name, project-relative path, keywords, export
names and prop names, in that order; the keywords themselves carry no
duplicates. -/
theorem searchText_shape_and_keyword_dedup
    (projectId : String) (synonyms : String → List String)
    (callGraph : String → Option CallGraphEntry) (parsed : ParsedFile) :
    (createIndexItem projectId synonyms callGraph parsed).searchText =
        strToLower (joinWith " "
          ([parsed.name, parsed.path] ++
            (createIndexItem projectId synonyms callGraph parsed).keywords ++
            parsed.exports.map (fun e => e.name) ++
            (parsed.props.map (fun ps => ps.map (fun p => p.name))).getD [])) ∧
      (createIndexItem projectId synonyms callGraph parsed).keywords.Nodup := by
  constructor
  · rfl
  · exact dedupFirstSeen_nodup _

/-! ## Orchestrator partial-failure claim -/

/-- The successful unit of a per-file outcome, when there is one. -/
def okUnit (r : Except String (Option ParsedFile)) : Option ParsedFile :=
  match r with
  | .ok (some p) => some p
  | _ => none

/-- The recorded error line of a per-file outcome, when it failed. -/
def errEntry (f : String) (r : Except String (Option ParsedFile)) :
    Option String :=
  match r with
  | .error m => some (f ++ ": " ++ m)
  | _ => none

/-- Structure of the parse loop: the parsed units are the successful
files in order, the error list records one line per throwing file in
order. -/
theorem analyzeScan_structure
    (parse : String → Except String (Option ParsedFile))
    (files : List String) :
    analyzeScan parse files =
      (files.filterMap (fun f => okUnit (parse f)),
       files.filterMap (fun f => errEntry f (parse f))) := by
  suffices h : ∀ acc : List ParsedFile × List String,
      files.foldl
        (fun acc f =>
          match parse f with
          | .ok (some p) => (acc.1 ++ [p], acc.2)
          | .ok none => acc
          | .error m => (acc.1, acc.2 ++ [f ++ ": " ++ m])) acc =
        (acc.1 ++ files.filterMap (fun f => okUnit (parse f)),
         acc.2 ++ files.filterMap (fun f => errEntry f (parse f))) by
    simpa using h ([], [])
  induction files with
  | nil => intro acc; simp
  | cons f fs ih =>
      intro acc
      simp only [List.foldl_cons, List.filterMap_cons]
      cases hp : parse f with
      | ok o =>
          cases o with
          | none => simp [okUnit, errEntry, hp, ih]
          | some p => simp [okUnit, errEntry, hp, ih]
      | error m => simp [okUnit, errEntry, hp, ih]

/-- C7: a file whose parse throws contributes exactly one `parseErrors`
line — the error list has one entry per throwing file, in file order —
and no index record; every successfully parsed file still yields a
record; no path is both recorded and in `parseErrors`; and the run
returns the full report for the configured project. -/
theorem per_file_failure_isolation
    (projectId : String) (synonyms : String → List String)
    (callGraph : String → Option CallGraphEntry)
    (parse : String → Except String (Option ParsedFile))
    (files : List String) (f m : String)
    (hPaths : ∀ g q, parse g = .ok (some q) → q.path = g)
    (hf : f ∈ files) (hErr : parse f = .error m) :
    (analyze projectId synonyms callGraph parse files).stats.parseErrors =
        files.filterMap (fun g => errEntry g (parse g)) ∧
      (f ++ ": " ++ m) ∈
        (analyze projectId synonyms callGraph parse files).stats.parseErrors ∧
      (∀ it ∈ (analyze projectId synonyms callGraph parse files).items,
        ∀ g m2, parse g = .error m2 → it.path ≠ g) ∧
      (∀ it ∈ (analyze projectId synonyms callGraph parse files).items,
        it.path ≠ f) ∧
      (∀ g q, g ∈ files → parse g = .ok (some q) →
        ∃ it ∈ (analyze projectId synonyms callGraph parse files).items,
          it.path = g) ∧
      (analyze projectId synonyms callGraph parse files).projectId =
        projectId := by
  have hscan := analyzeScan_structure parse files
  have hitems : (analyze projectId synonyms callGraph parse files).items =
      (files.filterMap (fun g => okUnit (parse g))).map
        (createIndexItem projectId synonyms callGraph) := by
    simp only [analyze, hscan]
  have herrs :
      (analyze projectId synonyms callGraph parse files).stats.parseErrors =
      files.filterMap (fun g => errEntry g (parse g)) := by
    simp only [analyze, hscan, calculateStats]
  have hNoErrPath : ∀ it ∈ (analyze projectId synonyms callGraph parse
      files).items, ∀ g m2, parse g = .error m2 → it.path ≠ g := by
    intro it hit g m2 hg
    rw [hitems] at hit
    rw [List.mem_map] at hit
    obtain ⟨q, hq, rfl⟩ := hit
    rw [List.mem_filterMap] at hq
    obtain ⟨g2, _, hg2⟩ := hq
    have hok : parse g2 = .ok (some q) := by
      unfold okUnit at hg2
      cases hp : parse g2 with
      | ok o =>
          cases o with
          | none => rw [hp] at hg2; cases hg2
          | some p =>
              rw [hp] at hg2
              cases hg2
              rfl
      | error m3 => rw [hp] at hg2; cases hg2
    have hqp : q.path = g2 := hPaths g2 q hok
    have hpath : (createIndexItem projectId synonyms callGraph q).path =
        q.path := rfl
    rw [hpath, hqp]
    intro hgg
    rw [hgg] at hok
    rw [hok] at hg
    cases hg
  refine ⟨herrs, ?_, hNoErrPath, ?_, ?_, rfl⟩
  · rw [herrs, List.mem_filterMap]
    exact ⟨f, hf, by simp [errEntry, hErr]⟩
  · intro it hit
    exact hNoErrPath it hit f m hErr
  · intro g q hg hok
    refine ⟨createIndexItem projectId synonyms callGraph q, ?_, by
      rw [show (createIndexItem projectId synonyms callGraph q).path = q.path
        from rfl]
      exact hPaths g q hok⟩
    rw [hitems, List.mem_map]
    refine ⟨q, ?_, rfl⟩
    rw [List.mem_filterMap]
    exact ⟨g, hg, by simp [okUnit, hok]⟩

/-- Witness for C7: a three-file batch whose second file throws yields the
record of the first file, one error line for the second, and nothing for
the silently skipped third. -/
theorem per_file_failure_isolation_witness :
    ((analyze "proj" (fun _ => []) (fun _ => none)
        (fun g => if g = "a.ts"
          then .ok (some { path := "a.ts", type := FileType.utility,
                           name := "a" })
          else if g = "b.ts" then .error "boom" else .ok none)
        ["a.ts", "b.ts", "c.ts"]).stats.parseErrors =
      ["b.ts" ++ ": " ++ "boom"]) ∧
      (∀ it ∈ (analyze "proj" (fun _ => []) (fun _ => none)
        (fun g => if g = "a.ts"
          then .ok (some { path := "a.ts", type := FileType.utility,
                           name := "a" })
          else if g = "b.ts" then .error "boom" else .ok none)
        ["a.ts", "b.ts", "c.ts"]).items, it.path ≠ "b.ts") ∧
      (∃ it ∈ (analyze "proj" (fun _ => []) (fun _ => none)
        (fun g => if g = "a.ts"
          then .ok (some { path := "a.ts", type := FileType.utility,
                           name := "a" })
          else if g = "b.ts" then .error "boom" else .ok none)
        ["a.ts", "b.ts", "c.ts"]).items, it.path = "a.ts") := by
  have hPaths : ∀ g q, (fun g => if g = "a.ts"
      then Except.ok (some ({ path := "a.ts", type := FileType.utility,
                              name := "a" } : ParsedFile))
      else if g = "b.ts" then Except.error "boom" else .ok none) g =
        .ok (some q) → q.path = g := by
    intro g q h
    simp only [] at h
    by_cases h1 : g = "a.ts"
    · rw [if_pos h1] at h
      cases h
      rw [h1]
    · rw [if_neg h1] at h
      by_cases h2 : g = "b.ts"
      · rw [if_pos h2] at h; cases h
      · rw [if_neg h2] at h; cases h
  have h := per_file_failure_isolation "proj" (fun _ => []) (fun _ => none)
    (fun g => if g = "a.ts"
      then .ok (some { path := "a.ts", type := FileType.utility,
                       name := "a" })
      else if g = "b.ts" then .error "boom" else .ok none)
    ["a.ts", "b.ts", "c.ts"] "b.ts" "boom" hPaths (by decide) rfl
  refine ⟨?_, h.2.2.2.1, ?_⟩
  · rw [h.1]
    rfl
  · exact h.2.2.2.2.1 "a.ts"
      { path := "a.ts", type := FileType.utility, name := "a" } (by decide)
      rfl

/-! ## Hook scorer claim -/

/-- The declared function/variable names a node contributes to the hook
scorer's `+0.4` rule. -/
def nodeDeclNames : TsNode → List String
  | .funcDecl (some nm) _ _ _ => [nm]
  | .varStmt _ decls => decls.filterMap (fun d => d.name)
  | _ => []

/-- All declared function/variable names of a unit, in traversal order. -/
def declaredNames (nodes : List TsNode) : List String :=
  (nodes.map nodeDeclNames).flatten

/-- The `use*` call names a node contributes to the `hookCalls` set. -/
def nodeHookCallNames : TsNode → List String
  | .callExpr (.ident nm) => if hookCallName nm then [nm] else []
  | _ => []

/-- All `use*` call names of a unit, with duplicates, in traversal
order. -/
def rawHookCalls (nodes : List TsNode) : List String :=
  (nodes.map nodeHookCallNames).flatten

/-- The hook scorer's raw score as a closed formula (in twentieths):
0.4 per declared hook-named function or variable, 0.2 per distinct
well-known primitive invoked capped at three, 0.1 if any other `use*`
function is invoked. -/
def hookRawScore (sf : SourceFileModel) : Nat :=
  SCORE_04 * ((declaredNames sf.nodes).filter hookNameDecl).length +
    SCORE_02 * min ((reactHooks.filter
      (fun h => (rawHookCalls sf.nodes).contains h)).length) 3 +
    (if (rawHookCalls sf.nodes).any (fun h => !(reactHooks.contains h))
     then SCORE_01 else 0)

/-- The declared-name test the claim states: `use` followed by an
uppercase letter. -/
def specHookNameDecl (name : String) : Bool :=
  strStartsWith name "use" && name.length > 3 &&
    (match name.data.get? 3 with
     | some c => c.isUpper
     | none => false)

/-- The hook raw score as the claim words it, with the uppercase-letter
test in place of the source's own-uppercase test. -/
def specHookRawScore (sf : SourceFileModel) : Nat :=
  SCORE_04 * ((declaredNames sf.nodes).filter specHookNameDecl).length +
    SCORE_02 * min ((reactHooks.filter
      (fun h => (rawHookCalls sf.nodes).contains h)).length) 3 +
    (if (rawHookCalls sf.nodes).any (fun h => !(reactHooks.contains h))
     then SCORE_01 else 0)

/-- C3: the claim's score formula counts `+0.4` only for names whose
fourth character is an uppercase letter, but the source tests
`name[3] === name[3].toUpperCase()`, which also accepts digits,
underscores and the like: on a variable named `use_data` the scorer fires
at confidence 0.4 while the claim's formula scores 0 and would produce no
result. -/
theorem hook_scorer_accepts_non_letter_fourth_char :
    detectHook { fileName := "x.ts",
                 nodes := [.varStmt false [⟨some "use_data", false⟩]] } =
        some { type := .hook, confidence := 8,
               reasons :=
                 ["함수 use_data가 use로 시작 (Hook 네이밍 컨벤션)"] } ∧
      specHookRawScore { fileName := "x.ts",
                         nodes :=
                           [.varStmt false [⟨some "use_data", false⟩]] } =
        0 ∧
      (0 : Nat) < SCORE_03 := by
  decide

/-- The post score of the hook scorer in closed form. -/
def hookPostScore (scan : HookScan) : Nat :=
  scan.score +
    SCORE_02 * min ((reactHooks.filter
      (fun h => scan.hookCalls.contains h)).length) 3 +
    (if 0 < (scan.hookCalls.filter
        (fun h => !(reactHooks.contains h))).length
     then SCORE_01 else 0)

/-- The post reasons of the hook scorer in closed form. -/
def hookPostReasons (scan : HookScan) : List String :=
  (scan.reasons ++
    (if 0 < (reactHooks.filter
        (fun h => scan.hookCalls.contains h)).length
     then ["React Hook 사용: " ++ joinWith ", "
        (reactHooks.filter (fun h => scan.hookCalls.contains h))]
     else [])) ++
    (if 0 < (scan.hookCalls.filter
        (fun h => !(reactHooks.contains h))).length
     then ["커스텀 Hook 호출: " ++ joinWith ", "
        ((scan.hookCalls.filter (fun h => !(reactHooks.contains h))).take 3)]
     else [])

/-- The hook post step in closed form. -/
theorem hookPost_eq (scan : HookScan) :
    hookPost scan =
      if hookPostScore scan < SCORE_03 then none
      else some { type := .hook, confidence := min (hookPostScore scan)
                    SCORE_1,
                  reasons := hookPostReasons scan } := by
  by_cases h1 : 0 < (List.filter
      (fun h => decide (h ∈ scan.hookCalls)) reactHooks).length
  · by_cases h2 : 0 < (List.filter
        (fun h => !decide (h ∈ reactHooks)) scan.hookCalls).length
    · simp [hookPost, hookPostScore, hookPostReasons, h1, h2]
    · simp [hookPost, hookPostScore, hookPostReasons, h1, h2]
  · have e1 : (List.filter
        (fun h => decide (h ∈ scan.hookCalls)) reactHooks).length = 0 := by
      omega
    by_cases h2 : 0 < (List.filter
        (fun h => !decide (h ∈ reactHooks)) scan.hookCalls).length
    · simp [hookPost, hookPostScore, hookPostReasons, h1, h2, e1]
    · simp [hookPost, hookPostScore, hookPostReasons, h1, h2, e1]

/-- `hookDeclStep` only touches score and reasons. -/
theorem hookDeclStep_hookCalls (acc : HookScan) (n : String) :
    (hookDeclStep acc n).hookCalls = acc.hookCalls := by
  unfold hookDeclStep
  by_cases h : hookNameDecl n = true
  · simp [h]
  · simp [h]

/-- Score effect of `hookDeclStep`. -/
theorem hookDeclStep_score (acc : HookScan) (n : String) :
    (hookDeclStep acc n).score =
      acc.score + (if hookNameDecl n then SCORE_04 else 0) := by
  unfold hookDeclStep
  by_cases h : hookNameDecl n = true
  · simp [h]
  · simp [h]

/-- Score effect of the declaration sub-loop of a variable statement. -/
theorem hookDeclsFold_score (decls : List VarDeclInfo) :
    ∀ acc : HookScan,
      (decls.foldl
        (fun a d => match d.name with
          | some n => hookDeclStep a n
          | none => a) acc).score =
      acc.score + SCORE_04 *
        ((decls.filterMap (fun d => d.name)).filter hookNameDecl).length := by
  induction decls with
  | nil => intro acc; simp
  | cons d ds ih =>
      intro acc
      simp only [List.foldl_cons, List.filterMap_cons]
      cases hd : d.name with
      | none => rw [ih]
      | some n =>
          rw [ih, hookDeclStep_score]
          by_cases h : hookNameDecl n = true
          · simp [h, List.filter_cons, Nat.mul_add, Nat.mul_one]
            omega
          · simp [h, List.filter_cons]

/-- The declaration sub-loop leaves the call set alone. -/
theorem hookDeclsFold_hookCalls (decls : List VarDeclInfo) :
    ∀ acc : HookScan,
      (decls.foldl
        (fun a d => match d.name with
          | some n => hookDeclStep a n
          | none => a) acc).hookCalls = acc.hookCalls := by
  induction decls with
  | nil => intro acc; simp
  | cons d ds ih =>
      intro acc
      simp only [List.foldl_cons]
      cases hd : d.name with
      | none => rw [ih]
      | some n => rw [ih, hookDeclStep_hookCalls]

/-- Score effect of one `hookVisit` step. -/
theorem hookVisit_score (acc : HookScan) (n : TsNode) :
    (hookVisit acc n).score =
      acc.score +
        SCORE_04 * ((nodeDeclNames n).filter hookNameDecl).length := by
  cases n with
  | funcDecl name e a f =>
      cases name with
      | none => simp [hookVisit, nodeDeclNames]
      | some nm =>
          rw [show hookVisit acc (.funcDecl (some nm) e a f) =
            hookDeclStep acc nm from rfl, hookDeclStep_score]
          by_cases h : hookNameDecl nm = true
          · simp [nodeDeclNames, List.filter_cons, h]
          · simp [nodeDeclNames, List.filter_cons, h]
  | varStmt e decls =>
      rw [show hookVisit acc (.varStmt e decls) =
        decls.foldl (fun a d => match d.name with
          | some n => hookDeclStep a n
          | none => a) acc from rfl, hookDeclsFold_score]
      rfl
  | callExpr c =>
      cases c with
      | ident nm =>
          simp only [hookVisit, nodeDeclNames]
          by_cases h : hookCallName nm = true
          · rw [if_pos h]
            by_cases h2 : acc.hookCalls.contains nm = true
            · rw [if_pos h2]; simp
            · rw [if_neg h2]; simp
          · rw [if_neg h]; simp
      | propAccess b => simp [hookVisit, nodeDeclNames]
      | other => simp [hookVisit, nodeDeclNames]
  | arrowFunc a f => simp [hookVisit, nodeDeclNames]
  | funcExpr a f => simp [hookVisit, nodeDeclNames]
  | methodDecl a => simp [hookVisit, nodeDeclNames]
  | classDecl name => simp [hookVisit, nodeDeclNames]
  | importDecl m i => simp [hookVisit, nodeDeclNames]
  | jsxElement => simp [hookVisit, nodeDeclNames]
  | jsxSelfClosing => simp [hookVisit, nodeDeclNames]
  | jsxFragment => simp [hookVisit, nodeDeclNames]

/-- Call-set effect of one `hookVisit` step, as membership. -/
theorem hookVisit_hookCalls_mem (acc : HookScan) (n : TsNode) (x : String) :
    x ∈ (hookVisit acc n).hookCalls ↔
      x ∈ acc.hookCalls ∨ x ∈ nodeHookCallNames n := by
  cases n with
  | funcDecl name e a f =>
      cases name with
      | none => simp [hookVisit, nodeHookCallNames]
      | some nm =>
          rw [show hookVisit acc (.funcDecl (some nm) e a f) =
            hookDeclStep acc nm from rfl, hookDeclStep_hookCalls]
          simp [nodeHookCallNames]
  | varStmt e decls =>
      rw [show hookVisit acc (.varStmt e decls) =
        decls.foldl (fun a d => match d.name with
          | some n => hookDeclStep a n
          | none => a) acc from rfl, hookDeclsFold_hookCalls]
      simp [nodeHookCallNames]
  | callExpr c =>
      cases c with
      | ident nm =>
          simp only [hookVisit, nodeHookCallNames]
          by_cases h : hookCallName nm = true
          · rw [if_pos h, if_pos h]
            by_cases h2 : acc.hookCalls.contains nm = true
            · rw [if_pos h2]
              have hmem : nm ∈ acc.hookCalls := by simpa using h2
              constructor
              · intro hx; exact Or.inl hx
              · intro hx
                rcases hx with hx | hx
                · exact hx
                · rw [List.mem_singleton] at hx
                  subst hx
                  exact hmem
            · rw [if_neg h2]
              simp [List.mem_append]
          · rw [if_neg h, if_neg h]
            simp
      | propAccess b => simp [hookVisit, nodeHookCallNames]
      | other => simp [hookVisit, nodeHookCallNames]
  | arrowFunc a f => simp [hookVisit, nodeHookCallNames]
  | funcExpr a f => simp [hookVisit, nodeHookCallNames]
  | methodDecl a => simp [hookVisit, nodeHookCallNames]
  | classDecl name => simp [hookVisit, nodeHookCallNames]
  | importDecl m i => simp [hookVisit, nodeHookCallNames]
  | jsxElement => simp [hookVisit, nodeHookCallNames]
  | jsxSelfClosing => simp [hookVisit, nodeHookCallNames]
  | jsxFragment => simp [hookVisit, nodeHookCallNames]

/-- Score of the whole hook traversal. -/
theorem hookFold_score (nodes : List TsNode) :
    ∀ acc : HookScan,
      (nodes.foldl hookVisit acc).score =
        acc.score +
          SCORE_04 * ((declaredNames nodes).filter hookNameDecl).length := by
  induction nodes with
  | nil => intro acc; simp [declaredNames]
  | cons n ns ih =>
      intro acc
      simp only [List.foldl_cons]
      rw [ih, hookVisit_score]
      simp [declaredNames, List.filter_append, Nat.mul_add]
      omega

/-- Call set of the whole hook traversal, as membership. -/
theorem hookFold_hookCalls_mem (nodes : List TsNode) :
    ∀ (acc : HookScan) (x : String),
      x ∈ (nodes.foldl hookVisit acc).hookCalls ↔
        x ∈ acc.hookCalls ∨ x ∈ rawHookCalls nodes := by
  induction nodes with
  | nil => intro acc x; simp [rawHookCalls]
  | cons n ns ih =>
      intro acc x
      simp only [List.foldl_cons]
      rw [ih, hookVisit_hookCalls_mem]
      simp [rawHookCalls]
      tauto

/-- Membership-equal string lists agree on `contains`. -/
theorem contains_eq_of_mem_iff {l1 l2 : List String}
    (h : ∀ x, x ∈ l1 ↔ x ∈ l2) (x : String) :
    l1.contains x = l2.contains x := by
  by_cases hx : x ∈ l1
  · have hx2 : x ∈ l2 := (h x).mp hx
    simp [hx, hx2]
  · have hx2 : x ∉ l2 := fun h2 => hx ((h x).mpr h2)
    simp [hx, hx2]

/-- C3 (amended): the hook scorer's raw score is exactly 0.4 per declared
function or variable whose name starts with `use`, is longer than three
characters and whose fourth character equals its own uppercase form (an
uppercase letter, digit, underscore, ...), plus 0.2 per distinct
well-known primitive invoked capped at three, plus 0.1 if any other
`use*` function is invoked; a result is returned iff that score reaches
0.3, with confidence clamped at 1.0. -/
theorem detectHook_score_formula (sf : SourceFileModel) :
    (detectHook sf = none ↔ hookRawScore sf < SCORE_03) ∧
      ∀ r, detectHook sf = some r → r.type = .hook ∧
        r.confidence = min (hookRawScore sf) SCORE_1 := by
  have hmem : ∀ x, x ∈ (sf.nodes.foldl hookVisit {}).hookCalls ↔
      x ∈ rawHookCalls sf.nodes := by
    intro x
    have := hookFold_hookCalls_mem sf.nodes {} x
    simpa using this
  have hscore : hookPostScore (sf.nodes.foldl hookVisit {}) =
      hookRawScore sf := by
    unfold hookPostScore hookRawScore
    have h1 : (sf.nodes.foldl hookVisit {}).score =
        SCORE_04 * ((declaredNames sf.nodes).filter hookNameDecl).length := by
      have := hookFold_score sf.nodes {}
      simpa using this
    have h2 : reactHooks.filter
        (fun h => (sf.nodes.foldl hookVisit {}).hookCalls.contains h) =
        reactHooks.filter
          (fun h => (rawHookCalls sf.nodes).contains h) := by
      refine List.filter_congr ?_
      intro x _
      exact contains_eq_of_mem_iff hmem x
    have h3 : (0 < ((sf.nodes.foldl hookVisit {}).hookCalls.filter
        (fun h => !(reactHooks.contains h))).length) ↔
        ((rawHookCalls sf.nodes).any
          (fun h => !(reactHooks.contains h)) = true) := by
      rw [List.length_pos_iff_exists_mem, List.any_eq_true]
      constructor
      · rintro ⟨x, hx⟩
        rw [List.mem_filter] at hx
        exact ⟨x, (hmem x).mp hx.1, hx.2⟩
      · rintro ⟨x, hx1, hx2⟩
        exact ⟨x, List.mem_filter.mpr ⟨(hmem x).mpr hx1, hx2⟩⟩
    rw [h1, h2]
    congr 1
    by_cases hc : (rawHookCalls sf.nodes).any
        (fun h => !(reactHooks.contains h)) = true
    · rw [if_pos (h3.mpr hc), if_pos hc]
    · rw [if_neg (fun h => hc (h3.mp h)), if_neg hc]
  rw [show detectHook sf = hookPost (sf.nodes.foldl hookVisit {}) from rfl,
    hookPost_eq, hscore]
  constructor
  · by_cases h : hookRawScore sf < SCORE_03
    · simp [h]
    · simp [h]
  · intro r hr
    by_cases h : hookRawScore sf < SCORE_03
    · rw [if_pos h] at hr; cases hr
    · rw [if_neg h] at hr
      cases hr
      exact ⟨rfl, rfl⟩

/-- Witness for C3 (amended): on a unit declaring `useAuth` and calling
`useState` and `useRouter`, the scorer returns a hook result whose
confidence is the formula score 0.4 + 0.2 + 0.1 = 0.7, i.e. 14
twentieths. -/
theorem detectHook_score_formula_witness :
    ∃ r, detectHook
        { fileName := "x.ts",
          nodes := [.funcDecl (some "useAuth") true false none,
                    .callExpr (.ident "useState"),
                    .callExpr (.ident "useRouter")] } = some r ∧
      r.type = FileType.hook ∧
      r.confidence = min (hookRawScore
        { fileName := "x.ts",
          nodes := [.funcDecl (some "useAuth") true false none,
                    .callExpr (.ident "useState"),
                    .callExpr (.ident "useRouter")] }) SCORE_1 ∧
      r.confidence = 14 := by
  have h := (detectHook_score_formula
      { fileName := "x.ts",
        nodes := [.funcDecl (some "useAuth") true false none,
                  .callExpr (.ident "useState"),
                  .callExpr (.ident "useRouter")] }).2
    { type := FileType.hook, confidence := 14,
      reasons := ["함수 useAuth가 use로 시작 (Hook 네이밍 컨벤션)",
                  "React Hook 사용: useState",
                  "커스텀 Hook 호출: useRouter"] } (by decide)
  exact ⟨{ type := FileType.hook, confidence := 14,
           reasons := ["함수 useAuth가 use로 시작 (Hook 네이밍 컨벤션)",
                       "React Hook 사용: useState",
                       "커스텀 Hook 호출: useRouter"] },
         by decide, h.1, h.2, rfl⟩

/-! ## Reasons invariant of the heuristic scorers -/

/-- Every score increment of `hookDeclStep` comes with a reason. -/
theorem hookDeclStep_inv (acc : HookScan) (n : String)
    (h : acc.score ≤ SCORE_1 * acc.reasons.length) :
    (hookDeclStep acc n).score ≤
      SCORE_1 * (hookDeclStep acc n).reasons.length := by
  unfold hookDeclStep
  by_cases hp : hookNameDecl n = true
  · simp only [hp, if_true, List.length_append, List.length_cons,
      List.length_nil]
    simp only [SCORE_1, SCORE_04] at *
    omega
  · simp [hp, h]

/-- The declaration sub-loop preserves the score-per-reason bound. -/
theorem hookDeclsFold_inv (decls : List VarDeclInfo) :
    ∀ acc : HookScan, acc.score ≤ SCORE_1 * acc.reasons.length →
      (decls.foldl
        (fun a d => match d.name with
          | some n => hookDeclStep a n
          | none => a) acc).score ≤
        SCORE_1 * (decls.foldl
          (fun a d => match d.name with
            | some n => hookDeclStep a n
            | none => a) acc).reasons.length := by
  induction decls with
  | nil => intro acc h; simpa using h
  | cons d ds ih =>
      intro acc h
      simp only [List.foldl_cons]
      cases hd : d.name with
      | none => exact ih acc h
      | some n => exact ih _ (hookDeclStep_inv acc n h)

/-- One hook visit preserves the score-per-reason bound. -/
theorem hookVisit_inv (acc : HookScan) (n : TsNode)
    (h : acc.score ≤ SCORE_1 * acc.reasons.length) :
    (hookVisit acc n).score ≤ SCORE_1 * (hookVisit acc n).reasons.length := by
  cases n with
  | funcDecl name e a f =>
      cases name with
      | none => simpa [hookVisit] using h
      | some nm => exact hookDeclStep_inv acc nm h
  | varStmt e decls => exact hookDeclsFold_inv decls acc h
  | callExpr c =>
      cases c with
      | ident nm =>
          simp only [hookVisit]
          by_cases hc : hookCallName nm = true
          · rw [if_pos hc]
            by_cases h2 : acc.hookCalls.contains nm = true
            · rw [if_pos h2]; exact h
            · rw [if_neg h2]; exact h
          · rw [if_neg hc]; exact h
      | propAccess b => simpa [hookVisit] using h
      | other => simpa [hookVisit] using h
  | arrowFunc a f => simpa [hookVisit] using h
  | funcExpr a f => simpa [hookVisit] using h
  | methodDecl a => simpa [hookVisit] using h
  | classDecl name => simpa [hookVisit] using h
  | importDecl m i => simpa [hookVisit] using h
  | jsxElement => simpa [hookVisit] using h
  | jsxSelfClosing => simpa [hookVisit] using h
  | jsxFragment => simpa [hookVisit] using h

/-- The whole hook traversal keeps the score-per-reason bound. -/
theorem hookFold_inv (nodes : List TsNode) :
    ∀ acc : HookScan, acc.score ≤ SCORE_1 * acc.reasons.length →
      (nodes.foldl hookVisit acc).score ≤
        SCORE_1 * (nodes.foldl hookVisit acc).reasons.length := by
  induction nodes with
  | nil => intro acc h; simpa using h
  | cons n ns ih =>
      intro acc h
      simp only [List.foldl_cons]
      exact ih _ (hookVisit_inv acc n h)

/-- A hook result always carries a reason. -/
theorem detectHook_reasons (sf : SourceFileModel) (r : DetectionResult)
    (h : detectHook sf = some r) : r.reasons ≠ [] := by
  rw [show detectHook sf = hookPost (sf.nodes.foldl hookVisit {}) from rfl,
    hookPost_eq] at h
  split at h
  · cases h
  · rename_i hacc
    cases h
    show hookPostReasons (sf.nodes.foldl hookVisit {}) ≠ []
    unfold hookPostReasons
    by_cases h1 : 0 < (reactHooks.filter
        (fun h => (sf.nodes.foldl hookVisit {}).hookCalls.contains h)).length
    · rw [if_pos h1]
      simp
    · rw [if_neg h1]
      by_cases h2 : 0 < ((sf.nodes.foldl hookVisit {}).hookCalls.filter
          (fun h => !(reactHooks.contains h))).length
      · rw [if_pos h2]
        simp
      · rw [if_neg h2]
        simp only [List.append_nil]
        unfold hookPostScore at hacc
        rw [if_neg h2] at hacc
        have e1 : (reactHooks.filter
            (fun h => (sf.nodes.foldl hookVisit {}).hookCalls.contains
              h)).length = 0 := by omega
        rw [e1] at hacc
        have hinv := hookFold_inv sf.nodes {} (by simp)
        have hpos : 0 < (sf.nodes.foldl hookVisit {}).reasons.length := by
          simp only [SCORE_1, SCORE_03, SCORE_02] at hacc hinv
          omega
        intro hnil
        rw [hnil] at hpos
        simp at hpos

/-- A component result always carries a reason. -/
theorem componentPost_reasons (fileName : String) (scan : ComponentScan)
    (r : DetectionResult) (h : componentPost fileName scan = some r) :
    r.reasons ≠ [] := by
  unfold componentPost at h
  simp only [] at h
  by_cases h1 : scan.hasJsxReturn = true
  · rw [if_pos h1] at h
    by_cases h2 : scan.jsxElementCount > 3
    · rw [if_pos h2] at h
      by_cases h3 : scan.hasPropsParam = true
      · rw [if_pos h3] at h
        split at h <;> cases h <;> simp
      · rw [if_neg h3] at h
        split at h <;> cases h <;> simp
    · rw [if_neg h2] at h
      by_cases h3 : scan.hasPropsParam = true
      · rw [if_pos h3] at h
        split at h <;> cases h <;> simp
      · rw [if_neg h3] at h
        split at h <;> cases h <;> simp
  · rw [if_neg h1] at h
    by_cases h3 : scan.hasPropsParam = true
    · rw [if_pos h3] at h
      by_cases h4 : (strEndsWith fileName ".tsx" ||
          strEndsWith fileName ".jsx") = true
      · rw [if_pos h4, if_pos (by decide)] at h
        cases h
      · rw [if_neg h4, if_pos (by decide)] at h
        cases h
    · rw [if_neg h3] at h
      by_cases h4 : (strEndsWith fileName ".tsx" ||
          strEndsWith fileName ".jsx") = true
      · rw [if_pos h4, if_pos (by decide)] at h
        cases h
      · rw [if_neg h4, if_pos (by decide)] at h
        cases h

/-- An api-route result always carries a reason. -/
theorem apiPost_reasons (scan : ApiScan) (r : DetectionResult)
    (h : apiPost scan = some r) : r.reasons ≠ [] := by
  unfold apiPost at h
  simp only [] at h
  by_cases h1 : scan.httpMethods.length > 0
  · rw [if_pos h1] at h
    by_cases h2 : (scan.hasNextRequest || scan.hasNextResponse) = true
    · rw [if_pos h2] at h
      split at h
      · cases h
      · cases h; simp
    · rw [if_neg h2] at h
      split at h
      · cases h
      · cases h; simp
  · rw [if_neg h1] at h
    by_cases h2 : (scan.hasNextRequest || scan.hasNextResponse) = true
    · rw [if_pos h2, if_pos (by decide)] at h
      cases h
    · rw [if_neg h2, if_pos (by decide)] at h
      cases h

/-- A utility result always carries a reason. -/
theorem utilityPost_reasons (scan : UtilityScan) (r : DetectionResult)
    (h : utilityPost scan = some r) : r.reasons ≠ [] := by
  unfold utilityPost at h
  simp only [] at h
  by_cases h0 : (scan.hasJsx || scan.hasReactImport) = true
  · rw [if_pos h0] at h
    cases h
  · rw [if_neg h0] at h
    by_cases h1 : scan.exportedFunctionCount ≥ 2
    · rw [if_pos h1] at h
      by_cases h2 : (scan.exportedNames.filter
          (fun name => utilityPatterns.any
            (fun pat => strStartsWith (strToLower name) pat))).length > 0
      · rw [if_pos h2] at h
        split at h
        · cases h
        · cases h; simp
      · rw [if_neg h2] at h
        split at h
        · cases h
        · cases h; simp
    · rw [if_neg h1] at h
      by_cases h2 : (scan.exportedNames.filter
          (fun name => utilityPatterns.any
            (fun pat => strStartsWith (strToLower name) pat))).length > 0
      · rw [if_pos h2, if_pos (by simp [SCORE_02, SCORE_03])] at h
        cases h
      · rw [if_neg h2, if_pos (by simp [SCORE_03])] at h
        cases h

/-- Every score increment of a service visit comes with a reason. -/
theorem serviceVisit_inv (acc : ServiceScan) (n : TsNode)
    (h : acc.score ≤ SCORE_1 * acc.reasons.length) :
    (serviceVisit acc n).score ≤
      SCORE_1 * (serviceVisit acc n).reasons.length := by
  cases n with
  | classDecl name =>
      cases name with
      | none => simpa [serviceVisit] using h
      | some nm =>
          simp only [serviceVisit]
          by_cases hc : serviceClassName nm = true
          · simp only [hc, if_true, List.length_append, List.length_cons,
              List.length_nil]
            simp only [SCORE_1, SCORE_05] at *
            omega
          · simp [hc, h]
  | callExpr c =>
      cases c with
      | ident nm =>
          simp only [serviceVisit]
          by_cases hf : nm == "fetch"
          · simp [hf, h]
          · by_cases ha : nm == "axios"
            · simp [hf, ha, h]
            · simp [hf, ha, h]
      | propAccess b =>
          cases b with
          | none => simpa [serviceVisit] using h
          | some bn =>
              simp only [serviceVisit]
              by_cases hb : bn == "axios"
              · simp [hb, h]
              · simp [hb, h]
      | other => simpa [serviceVisit] using h
  | funcDecl name e a f =>
      simp only [serviceVisit]
      by_cases ha : a = true
      · simp [ha, h]
      · simp [ha, h]
  | arrowFunc a f =>
      simp only [serviceVisit]
      by_cases ha : a = true
      · simp [ha, h]
      · simp [ha, h]
  | methodDecl a =>
      simp only [serviceVisit]
      by_cases ha : a = true
      · simp [ha, h]
      · simp [ha, h]
  | funcExpr a f => simpa [serviceVisit] using h
  | varStmt e decls => simpa [serviceVisit] using h
  | importDecl m i => simpa [serviceVisit] using h
  | jsxElement => simpa [serviceVisit] using h
  | jsxSelfClosing => simpa [serviceVisit] using h
  | jsxFragment => simpa [serviceVisit] using h

/-- The whole service traversal keeps the score-per-reason bound. -/
theorem serviceFold_inv (nodes : List TsNode) :
    ∀ acc : ServiceScan, acc.score ≤ SCORE_1 * acc.reasons.length →
      (nodes.foldl serviceVisit acc).score ≤
        SCORE_1 * (nodes.foldl serviceVisit acc).reasons.length := by
  induction nodes with
  | nil => intro acc h; simpa using h
  | cons n ns ih =>
      intro acc h
      simp only [List.foldl_cons]
      exact ih _ (serviceVisit_inv acc n h)

/-- The post score of the service scorer in closed form. -/
def servicePostScore (scan : ServiceScan) : Nat :=
  scan.score +
    (if scan.fetchCount > 0 then SCORE_02 * min scan.fetchCount 3 else 0) +
    (if scan.axiosCount > 0 then SCORE_02 * min scan.axiosCount 3 else 0) +
    (if scan.asyncFunctionCount ≥ 2 then SCORE_015 else 0)

/-- The post reasons of the service scorer in closed form. -/
def servicePostReasons (scan : ServiceScan) : List String :=
  ((scan.reasons ++
      (if scan.fetchCount > 0 then
        ["fetch 호출 " ++ toString scan.fetchCount ++ "회"] else [])) ++
    (if scan.axiosCount > 0 then
      ["axios 호출 " ++ toString scan.axiosCount ++ "회"] else [])) ++
    (if scan.asyncFunctionCount ≥ 2 then
      ["async 함수 " ++ toString scan.asyncFunctionCount ++ "개"] else [])

/-- The service post step in closed form. -/
theorem servicePost_eq (scan : ServiceScan) :
    servicePost scan =
      if servicePostScore scan < SCORE_03 then none
      else some { type := .service,
                  confidence := min (servicePostScore scan) SCORE_1,
                  reasons := servicePostReasons scan } := by
  by_cases h1 : 0 < scan.fetchCount <;>
    by_cases h2 : 0 < scan.axiosCount <;>
    by_cases h3 : 2 ≤ scan.asyncFunctionCount <;>
    simp [servicePost, servicePostScore, servicePostReasons, h1, h2, h3]

/-- A service result always carries a reason. -/
theorem detectService_reasons (sf : SourceFileModel) (r : DetectionResult)
    (h : detectService sf = some r) : r.reasons ≠ [] := by
  rw [show detectService sf =
    servicePost (sf.nodes.foldl serviceVisit {}) from rfl,
    servicePost_eq] at h
  split at h
  · cases h
  · rename_i hacc
    cases h
    show servicePostReasons (sf.nodes.foldl serviceVisit {}) ≠ []
    unfold servicePostReasons
    by_cases h1 : (sf.nodes.foldl serviceVisit {}).fetchCount > 0
    · rw [if_pos h1]
      simp
    · rw [if_neg h1]
      by_cases h2 : (sf.nodes.foldl serviceVisit {}).axiosCount > 0
      · rw [if_pos h2]
        simp
      · rw [if_neg h2]
        by_cases h3 : (sf.nodes.foldl serviceVisit {}).asyncFunctionCount ≥ 2
        · rw [if_pos h3]
          simp
        · rw [if_neg h3]
          simp only [List.append_nil]
          unfold servicePostScore at hacc
          rw [if_neg h1, if_neg h2, if_neg h3] at hacc
          have hinv := serviceFold_inv sf.nodes {} (by simp)
          have hpos : 0 <
              (sf.nodes.foldl serviceVisit {}).reasons.length := by
            simp only [SCORE_1, SCORE_03] at hacc hinv
            omega
          intro hnil
          rw [hnil] at hpos
          simp at hpos

/-! ## Heuristic detector selection claim -/

/-- Inserting never empties a list. -/
theorem insertByConfDesc_ne_nil (d : DetectionResult)
    (s : List DetectionResult) : insertByConfDesc d s ≠ [] := by
  cases s with
  | nil => simp [insertByConfDesc]
  | cons e es =>
      unfold insertByConfDesc
      by_cases hc : d.confidence < e.confidence
      · simp [hc]
      · simp [hc]

/-- The stable sort is empty exactly on the empty list. -/
theorem sortByConfDesc_eq_nil_iff (l : List DetectionResult) :
    sortByConfDesc l = [] ↔ l = [] := by
  cases l with
  | nil => simp [sortByConfDesc]
  | cons x xs =>
      simp only [sortByConfDesc, List.foldr_cons]
      constructor
      · intro h
        exact absurd h (insertByConfDesc_ne_nil x _)
      · intro h
        cases h

/-- The head of the stable descending sort is the first element of maximal
confidence: everything before it in the original list is strictly less
confident, everything in the list is at most as confident. -/
theorem sortByConfDesc_head_spec (l : List DetectionResult)
    (r : DetectionResult) (h : (sortByConfDesc l).head? = some r) :
    ∃ pre post, l = pre ++ r :: post ∧
      (∀ d ∈ pre, d.confidence < r.confidence) ∧
      ∀ d ∈ l, d.confidence ≤ r.confidence := by
  induction l generalizing r with
  | nil => simp [sortByConfDesc] at h
  | cons x xs ih =>
      rw [show sortByConfDesc (x :: xs) =
        insertByConfDesc x (sortByConfDesc xs) from rfl] at h
      cases hs : sortByConfDesc xs with
      | nil =>
          have hxs : xs = [] := (sortByConfDesc_eq_nil_iff xs).mp hs
          rw [hs] at h
          simp only [insertByConfDesc, List.head?_cons, Option.some.injEq]
            at h
          subst h
          exact ⟨[], [], by simp [hxs], by simp, by
            simp [hxs]⟩
      | cons e es =>
          rw [hs] at h
          by_cases hc : x.confidence < e.confidence
          · have hr : r = e := by
              simp only [insertByConfDesc, hc, if_true, List.head?_cons,
                Option.some.injEq] at h
              exact h.symm
            subst hr
            obtain ⟨pre, post, hsplit, hpre, hall⟩ := ih r (by rw [hs]; rfl)
            refine ⟨x :: pre, post, by simp [hsplit], ?_, ?_⟩
            · intro d hd
              rcases List.mem_cons.mp hd with hd | hd
              · subst hd; exact hc
              · exact hpre d hd
            · intro d hd
              rcases List.mem_cons.mp hd with hd | hd
              · subst hd; exact Nat.le_of_lt hc
              · exact hall d hd
          · have hr : r = x := by
              simp only [insertByConfDesc, hc, if_false, List.head?_cons,
                Option.some.injEq] at h
              exact h.symm
            subst hr
            refine ⟨[], xs, rfl, by simp, ?_⟩
            intro d hd
            rcases List.mem_cons.mp hd with hd | hd
            · subst hd; exact Nat.le_refl _
            · obtain ⟨pre, post, hsplit, hpre, hall⟩ := ih e (by rw [hs]; rfl)
              exact Nat.le_trans (hall d hd) (Nat.not_lt.mp hc)

/-- C2: the detector keeps exactly the accepted scorer results (in the
fixed order hook, component, api, service, utility), returns the first
one of maximal confidence — so ties break by scorer order — and returns
nothing when none accepted; the orchestrator then takes the detected role
only at confidence at least 0.4 (8 twentieths) and otherwise drops the
file, returning neither a unit nor an error, so the file contributes
nothing to items or parseErrors. -/
theorem detector_selection_and_confidence_gate
    (sf : SourceFileModel) (fileTypeMapping : List (String × FileType))
    (sqlParse : String → String → Except String ParsedFile)
    (extractImports : SourceFileModel → List ImportInfo)
    (extractExports : SourceFileModel → List ExportInfo)
    (extractProps : SourceFileModel → List PropInfo)
    (content relativePath : String) :
    (detect sf = none ↔ (scorerResults sf).filterMap id = []) ∧
      (∀ r, detect sf = some r →
        ∃ pre post, (scorerResults sf).filterMap id = pre ++ r :: post ∧
          (∀ d ∈ pre, d.confidence < r.confidence) ∧
          ∀ d ∈ (scorerResults sf).filterMap id,
            d.confidence ≤ r.confidence) ∧
      ((pathExtname relativePath == ".sql") = false →
        determineFileType fileTypeMapping relativePath = none →
        (∀ d, detect sf = some d → 8 ≤ d.confidence →
          parseFile fileTypeMapping sqlParse extractImports extractExports
              extractProps content relativePath sf =
            .ok (some
              { path := relativePath, type := d.type,
                name := extractName relativePath (extractExports sf),
                imports := extractImports sf,
                exports := extractExports sf,
                props := if d.type = .component
                         then some (extractProps sf) else none })) ∧
        (∀ d, detect sf = some d → d.confidence < 8 →
          parseFile fileTypeMapping sqlParse extractImports extractExports
              extractProps content relativePath sf = .ok none) ∧
        (detect sf = none →
          parseFile fileTypeMapping sqlParse extractImports extractExports
              extractProps content relativePath sf = .ok none) ∧
        (parseFile fileTypeMapping sqlParse extractImports extractExports
            extractProps content relativePath sf = .ok none →
          analyzeScan
            (fun _ => parseFile fileTypeMapping sqlParse extractImports
              extractExports extractProps content relativePath sf)
            [relativePath] = ([], []))) := by
    refine ⟨?_, ?_, ?_⟩
    · unfold detect
      rw [List.head?_eq_none_iff]
      exact sortByConfDesc_eq_nil_iff _
    · intro r hr
      exact sortByConfDesc_head_spec _ r hr
    · intro hExt hMap
      refine ⟨?_, ?_, ?_, ?_⟩
      · intro d hdet hconf
        have hcond : (SCORE_02 + SCORE_02 ≤ d.confidence) := by
          simpa [SCORE_02] using hconf
        simp only [parseFile, hExt, Bool.false_eq_true, if_false, hMap,
          hdet, hcond, if_true]
      · intro d hdet hconf
        have hcond : ¬ (SCORE_02 + SCORE_02 ≤ d.confidence) := by
          simp only [SCORE_02]
          omega
        simp only [parseFile, hExt, Bool.false_eq_true, if_false, hMap,
          hdet, hcond, if_false]
      · intro hdet
        simp only [parseFile, hExt, Bool.false_eq_true, if_false, hMap, hdet]
      · intro hnone
        simp [analyzeScan, hnone]

/-- Witness for C2: a file full of hook signals but outside every
path/name tier is indexed as a hook through the detector at confidence
0.6; a weak single-custom-call service signal at confidence 0.3 is
dropped with no unit and no error. -/
theorem detector_selection_and_confidence_gate_witness :
    parseFile [] (sqlParserParse (fun _ => none)) (fun _ => [])
        (fun _ => []) (fun _ => []) "src" "stuff/useThing.xyz"
        { fileName := "useThing.xyz",
          nodes := [.funcDecl (some "useThing") true false none,
                    .callExpr (.ident "useState")] } =
      .ok (some { path := "stuff/useThing.xyz", type := FileType.hook,
                  name := "useThing", imports := [], exports := [],
                  props := none }) ∧
      parseFile [] (sqlParserParse (fun _ => none)) (fun _ => [])
        (fun _ => []) (fun _ => []) "src" "stuff/weak.xyz"
        { fileName := "weak.xyz",
          nodes := [.callExpr (.ident "useState"),
                    .callExpr (.ident "useParams")] } = .ok none := by
  constructor
  · have h := (detector_selection_and_confidence_gate
      { fileName := "useThing.xyz",
        nodes := [.funcDecl (some "useThing") true false none,
                  .callExpr (.ident "useState")] }
      [] (sqlParserParse (fun _ => none)) (fun _ => []) (fun _ => [])
      (fun _ => []) "src" "stuff/useThing.xyz").2.2 (by decide) (by decide)
    have hd := h.1 { type := FileType.hook, confidence := 12,
                     reasons :=
                       ["함수 useThing가 use로 시작 (Hook 네이밍 컨벤션)",
                        "React Hook 사용: useState"] } (by decide) (by decide)
    rw [hd]
    rfl
  · have h := (detector_selection_and_confidence_gate
      { fileName := "weak.xyz",
        nodes := [.callExpr (.ident "useState"),
                  .callExpr (.ident "useParams")] }
      [] (sqlParserParse (fun _ => none)) (fun _ => []) (fun _ => [])
      (fun _ => []) "src" "stuff/weak.xyz").2.2 (by decide) (by decide)
    exact h.2.1 { type := FileType.hook, confidence := 6,
                  reasons := ["React Hook 사용: useState",
                              "커스텀 Hook 호출: useParams"] }
      (by decide) (by decide)

/-! ## Reasons claim -/

/-- C9: every result returned by the heuristic pattern detector carries at
least one reason string, whichever of the five scorers produced it. -/
theorem heuristic_results_carry_reasons (sf : SourceFileModel)
    (r : DetectionResult) (h : detect sf = some r) : r.reasons ≠ [] := by
  unfold detect at h
  obtain ⟨pre, post, hsplit, -, -⟩ := sortByConfDesc_head_spec _ r h
  have hmem : r ∈ (scorerResults sf).filterMap id := by
    rw [hsplit]
    simp
  rw [List.mem_filterMap] at hmem
  obtain ⟨o, ho, ho2⟩ := hmem
  simp only [id_eq] at ho2
  subst ho2
  simp only [scorerResults, List.mem_cons, List.not_mem_nil, or_false]
    at ho
  rcases ho with ho | ho | ho | ho | ho
  · exact detectHook_reasons sf r ho.symm
  · exact componentPost_reasons sf.fileName _ r ho.symm
  · exact apiPost_reasons _ r ho.symm
  · exact detectService_reasons sf r ho.symm
  · exact utilityPost_reasons _ r ho.symm

/-- Witness for C9: the detector result of a concrete hook file has a
nonempty reasons list, through the theorem. -/
theorem heuristic_results_carry_reasons_witness :
    detect { fileName := "x.ts",
             nodes := [.funcDecl (some "useAuth") true false none] } =
        some { type := FileType.hook, confidence := 8,
               reasons :=
                 ["함수 useAuth가 use로 시작 (Hook 네이밍 컨벤션)"] } ∧
      ({ type := FileType.hook, confidence := 8,
         reasons := ["함수 useAuth가 use로 시작 (Hook 네이밍 컨벤션)"] } :
        DetectionResult).reasons ≠ [] :=
  ⟨by decide,
   heuristic_results_carry_reasons
     { fileName := "x.ts",
       nodes := [.funcDecl (some "useAuth") true false none] }
     { type := FileType.hook, confidence := 8,
       reasons := ["함수 useAuth가 use로 시작 (Hook 네이밍 컨벤션)"] }
     (by decide)⟩
